import Mathlib

/-!
ShabdSetu

A shallow embedding of `client/controllers/follow.controller.js`,
`api/utils/mailer.js`, `client/src/components/ViewCount.jsx` and the function
`getPostCount` of `client/src/pages/Category/CategoryDetails.jsx`.

The follow controller.

The controller talks to two Mongoose models, `User` and `Follow`, whose schema
files are not part of the sources at hand.  The collections are embedded as
lists of documents in natural (insertion) order:

* a `Follow` document carries the `_id` the store assigned to it, the two
  references `follower` and `following`, and `createdAt`;
* the store keeps `_id` unique inside a collection, which is part of the type
  `FollowColl`; nothing else is assumed about a collection (in particular
  neither "one edge per pair" nor "no self edge" is built in);
* references are compared as the exact strings the controller handles;
* a store call that is handed, for `req.params.userId`, a text the store
  cannot cast to its `_id` type throws a `CastError`; which texts cast is the
  parameter `casts` (every text for string ids, the 24-digit hexadecimal texts
  for `ObjectId`).  `followUser` and `unfollowUser` are embedded with their
  `try` block and the `catch` that answers 500 with the message of the error;
* the `_id` of `req.user` comes from the authentication step and is taken to
  cast; no other failure of the store is modelled;
* the read handlers `getFollowers`, `getFollowing` and `getFollowStats`, and
  the lookup of `checkFollowStatus`, are embedded as they answer for a
  `userId` the store can cast;
* `notifyFollow` may throw; its result is a parameter;
* `req.user` is the object the authentication step attached to the request;
  it may be missing altogether (`ReqUser.absent`), in which case reading
  `req.user._id` throws a `TypeError`, or be there without an `_id`.

The mailer.

Recipients are JavaScript values (`JsVal`).  The state `mailer.js` builds from
`process.env` at load is `MailerModule`; the vendor primitive
`sendTransacEmail` and the HTML templates of `EmailTemplate.js` are
parameters.  Strings are sequences of characters; `String.prototype.replace`
is embedded for a string pattern and a string replacement, with the
replacement patterns it expands.

The view counter.

An effect run of `ViewCount` is a function from the refs and state of the
component to the new ones and the list of `fetch` calls it issues.

Post counts.

`getPostCount` works on JavaScript values; a call of `toLowerCase` on a value
that is not a string is a thrown `TypeError`.
-/

namespace ShabdSetu

/-! ## Documents -/

/-- The display fields `populate(..., 'name avatar email username')` selects,
together with the `_id` that is always kept. -/
structure UserDoc where
  _id : String
  name : String
  avatar : String
  email : String
  username : String
deriving DecidableEq, Repr

/-- A document of the `Follow` collection. -/
structure FollowDoc where
  _id : Nat
  follower : String
  following : String
  createdAt : Nat
deriving DecidableEq, Repr

/-- The `Follow` collection: documents in natural order, `_id` unique. -/
structure FollowColl where
  docs : List FollowDoc
  ids_nodup : (docs.map FollowDoc._id).Nodup

theorem FollowColl.ext_docs {c c' : FollowColl} (h : c.docs = c'.docs) : c = c' := by
  cases c; cases c'; cases h; rfl

instance : DecidableEq FollowColl := fun c c' =>
  decidable_of_iff (c.docs = c'.docs) ⟨FollowColl.ext_docs, fun h => by rw [h]⟩

/-- The empty collection. -/
def FollowColl.empty : FollowColl := ⟨[], List.nodup_nil⟩

/-! ## Queries -/

/-- One key of a query document: left out, holding `undefined`/`null`, or
holding a value. -/
inductive FieldCond where
  | unset
  | null
  | eq (v : String)
deriving DecidableEq, Repr

/-- A stored reference is never null, so a `null` condition matches nothing. -/
def FieldCond.sat : FieldCond → String → Bool
  | .unset, _ => true
  | .null, _ => false
  | .eq v, x => decide (x = v)

/-- The value of `req.user._id` placed in a query document. -/
def FieldCond.ofOption : Option String → FieldCond
  | none => .null
  | some v => .eq v

/-- A query document over the `Follow` collection, such as
`{ follower: followerId, following: userId }`. -/
structure FollowQuery where
  follower : FieldCond
  following : FieldCond
deriving DecidableEq, Repr

/-- Whether a document satisfies a query document. -/
def FollowQuery.sat (q : FollowQuery) (d : FollowDoc) : Bool :=
  q.follower.sat d.follower && q.following.sat d.following

/-! ## The models -/

/-- The message of the `CastError` Mongoose throws when it cannot cast a value
to the `_id` type at a path of a model. -/
def castErrorMessage (value path model : String) : String :=
  "Cast to ObjectId failed for value \"" ++ value ++ "\" (type string) at path \"" ++ path
    ++ "\" for model \"" ++ model ++ "\""

/-- The message of the `TypeError` thrown by `req.user._id` when `req.user` is
undefined. -/
def typeErrorMessage : String :=
  "Cannot read properties of undefined (reading \x27_id\x27)"

namespace User

/-- Embeds `User.findById(userId)`.  `casts` tells which texts the store can
cast to the `_id` type; on any other text the call throws a `CastError`
(`.error message`). -/
def findById (casts : String → Bool) (userId : String) (users : List UserDoc) :
    Except String (Option UserDoc) :=
  if casts userId then .ok (users.find? (fun u => decide (u._id = userId)))
  else .error (castErrorMessage userId "_id" "User")

end User

namespace Follow

/-- Embeds `Follow.findOne(q)`: the first matching document in natural order. -/
def findOne (q : FollowQuery) (c : FollowColl) : Option FollowDoc :=
  c.docs.find? q.sat

/-- Embeds `Follow.findByIdAndDelete(id)`. -/
def findByIdAndDelete (id : Nat) (c : FollowColl) : FollowColl :=
  ⟨c.docs.eraseP (fun d => decide (d._id = id)),
    (List.eraseP_sublist c.docs).map FollowDoc._id |>.nodup c.ids_nodup⟩

/-- Embeds `Follow.findOneAndDelete(q)`: the document found, and the collection
without it. -/
def findOneAndDelete (q : FollowQuery) (c : FollowColl) : Option FollowDoc × FollowColl :=
  (c.docs.find? q.sat,
    ⟨c.docs.eraseP q.sat, (List.eraseP_sublist c.docs).map FollowDoc._id |>.nodup c.ids_nodup⟩)

/-- An `_id` above every `_id` in use. -/
def freshId (docs : List FollowDoc) : Nat :=
  (docs.map FollowDoc._id).foldr max 0 + 1

theorem lt_freshId {docs : List FollowDoc} {d : FollowDoc} (h : d ∈ docs) :
    d._id < freshId docs := by
  induction docs with
  | nil => cases h
  | cons x xs ih =>
    simp only [freshId, List.map_cons, List.foldr_cons] at ih ⊢
    rcases List.mem_cons.1 h with rfl | h
    · omega
    · have := ih h
      omega

theorem freshId_not_mem (docs : List FollowDoc) :
    freshId docs ∉ docs.map FollowDoc._id := by
  intro h
  obtain ⟨d, hd, e⟩ := List.mem_map.1 h
  have := lt_freshId hd
  omega

/-- Embeds `Follow.create({ follower, following })` at time `now`: the new
document, and the collection with it appended. -/
def create (follower following : String) (now : Nat) (c : FollowColl) :
    FollowDoc × FollowColl :=
  let doc : FollowDoc := ⟨freshId c.docs, follower, following, now⟩
  (doc, ⟨c.docs ++ [doc], by
    rw [List.map_append, List.nodup_append]
    refine ⟨c.ids_nodup, by simp, ?_⟩
    intro a ha hb
    simp only [List.map_cons, List.map_nil, List.mem_singleton] at hb
    exact freshId_not_mem c.docs (hb ▸ ha)⟩)

/-- Embeds `Follow.find(q)`, before any sort. -/
def find (q : FollowQuery) (c : FollowColl) : List FollowDoc :=
  c.docs.filter q.sat

/-- Embeds `Follow.countDocuments(q)`. -/
def countDocuments (q : FollowQuery) (c : FollowColl) : Nat :=
  c.docs.countP q.sat

/-- The cast a query of the `Follow` model applies to the text given for a
reference path before it runs: a `CastError` (`.error message`) when the store
cannot cast it.  The controller hands it `req.params.userId`. -/
def castFilter (casts : String → Bool) (path value : String) : Except String Unit :=
  if casts value then .ok () else .error (castErrorMessage value path "Follow")

end Follow

/-! ## The controller -/

/-- What `req.user` holds: nothing at all, or the object the authentication
step attached, with its `_id` (`none` when the object has no `_id`). -/
inductive ReqUser where
  | absent
  | present (_id : Option String)
deriving DecidableEq, Repr

/-- The part of the request the controller reads: `req.params.userId` and
`req.user`. -/
structure Req where
  userId : String
  user : ReqUser
deriving DecidableEq, Repr

/-- The `_id` of `req.user` as a query value: `none` when there is no user or
no `_id`. -/
def Req.user_id (req : Req) : Option String :=
  match req.user with
  | .absent => none
  | .present _id => _id

/-- The value `handleError(statusCode, message)` hands to `next`. -/
structure HandledError where
  statusCode : Nat
  message : String
deriving DecidableEq, Repr

/-- Embeds `handleError` as the controller uses it. -/
def handleError (statusCode : Nat) (message : String) : HandledError :=
  ⟨statusCode, message⟩

/-- How a handler answers: `res.status(s).json(body)` or `next(err)`. -/
inductive Reply (β : Type) where
  | json (status : Nat) (body : β)
  | next (err : HandledError)
deriving DecidableEq, Repr

/-- Body of the answers of `followUser`. -/
structure ToggleBody where
  success : Bool
  following : Bool
  message : String
deriving DecidableEq, Repr

/-- Body of the answer of `unfollowUser`. -/
structure UnfollowBody where
  success : Bool
  message : String
deriving DecidableEq, Repr

/-- Body of the answer of `getFollowers`. -/
structure FollowersBody where
  success : Bool
  followers : List (Option UserDoc)
  count : Nat
deriving DecidableEq, Repr

/-- Body of the answer of `getFollowing`. -/
structure FollowingBody where
  success : Bool
  following : List (Option UserDoc)
  count : Nat
deriving DecidableEq, Repr

/-- Body of the answer of `checkFollowStatus`. -/
structure StatusBody where
  success : Bool
  isFollowing : Bool
deriving DecidableEq, Repr

/-- Body of the answer of `getFollowStats`. -/
structure StatsBody where
  success : Bool
  followersCount : Nat
  followingCount : Nat
deriving DecidableEq, Repr

/-- What one run of `followUser` leaves behind: the collection, the calls made
to `notifyFollow` (as `(followerId, targetUserId)`), the lines written with
`console.error`, and the answer. -/
structure FollowOutcome where
  follows : FollowColl
  notified : List (String × String)
  logged : List String
  reply : Reply ToggleBody

/-- What one run of `unfollowUser` leaves behind. -/
structure UnfollowOutcome where
  follows : FollowColl
  reply : Reply UnfollowBody

/-- JavaScript truthiness of `req.user._id?.toString()`: `undefined` and the
empty string are falsy. -/
def truthy : Option String → Bool
  | none => false
  | some s => !decide (s = "")

/-- Embeds the `try` block of `followUser`: the outcome, or `.error message`
when the block throws an error with that message.  `notifyFollow` is the
notification collaborator (`.error e` when it throws `e`), `users` the `User`
collection, `now` the time of the request and `casts` the texts the store can
cast to an `_id`.  Every throw comes before the first write. -/
def followUserTry (casts : String → Bool)
    (notifyFollow : String → String → Except String Unit)
    (users : List UserDoc) (now : Nat) (req : Req) (follows : FollowColl) :
    Except String FollowOutcome :=
  let userId := req.userId
  match req.user with
  | .absent => .error typeErrorMessage
  | .present none =>
    .ok ⟨follows, [], [], .next (handleError 401 "Authentication required")⟩
  | .present (some followerId) =>
    if !truthy (some followerId) then
      .ok ⟨follows, [], [], .next (handleError 401 "Authentication required")⟩
    else if followerId = userId then
      .ok ⟨follows, [], [], .next (handleError 400 "You cannot follow yourself.")⟩
    else
      match User.findById casts userId users with
      | .error castError => .error castError
      | .ok none => .ok ⟨follows, [], [], .next (handleError 404 "User not found.")⟩
      | .ok (some _) =>
        match Follow.findOne ⟨.eq followerId, .eq userId⟩ follows with
        | some existingFollow =>
          .ok ⟨Follow.findByIdAndDelete existingFollow._id follows, [], [],
            .json 200 ⟨true, false, "Unfollowed user."⟩⟩
        | none =>
          let follows' := (Follow.create followerId userId now follows).2
          match notifyFollow followerId userId with
          | .ok _ =>
            .ok ⟨follows', [(followerId, userId)], [],
              .json 201 ⟨true, true, "Successfully followed user."⟩⟩
          | .error notifyErr =>
            .ok ⟨follows', [(followerId, userId)], ["notifyFollow error: " ++ notifyErr],
              .json 201 ⟨true, true, "Successfully followed user."⟩⟩

/-- Embeds `followUser`: the `try` block, and the `catch` that answers
`next(handleError(500, error.message))`. -/
def followUser (casts : String → Bool)
    (notifyFollow : String → String → Except String Unit)
    (users : List UserDoc) (now : Nat) (req : Req) (follows : FollowColl) : FollowOutcome :=
  match followUserTry casts notifyFollow users now req follows with
  | .ok outcome => outcome
  | .error message => ⟨follows, [], [], .next (handleError 500 message)⟩

/-- Embeds the `try` block of `unfollowUser`: the outcome, or `.error message`
when the block throws an error with that message. -/
def unfollowUserTry (casts : String → Bool) (req : Req) (follows : FollowColl) :
    Except String UnfollowOutcome :=
  let userId := req.userId
  match req.user with
  | .absent => .error typeErrorMessage
  | .present followerId =>
    match Follow.castFilter casts "following" userId with
    | .error castError => .error castError
    | .ok _ =>
      match Follow.findOneAndDelete ⟨.ofOption followerId, .eq userId⟩ follows with
      | (none, follows') =>
        .ok ⟨follows', .next (handleError 404 "You are not following this user.")⟩
      | (some _, follows') =>
        .ok ⟨follows', .json 200 ⟨true, "Successfully unfollowed user."⟩⟩

/-- Embeds `unfollowUser`: the `try` block, and the `catch` that answers
`next(handleError(500, error.message))`. -/
def unfollowUser (casts : String → Bool) (req : Req) (follows : FollowColl) :
    UnfollowOutcome :=
  match unfollowUserTry casts req follows with
  | .ok outcome => outcome
  | .error message => ⟨follows, .next (handleError 500 message)⟩

/-- Embeds `.sort({ createdAt: -1 })`: newest first. -/
def sortCreatedAtDesc (l : List FollowDoc) : List FollowDoc :=
  l.insertionSort (fun d e => d.createdAt ≥ e.createdAt)

/-- Embeds `populate(path, 'name avatar email username')` on one reference:
the user document it names, or `null` when there is none. -/
def populate (users : List UserDoc) (ref : String) : Option UserDoc :=
  users.find? (fun u => decide (u._id = ref))

/-- Embeds `getFollowers`. -/
def getFollowers (users : List UserDoc) (req : Req) (follows : FollowColl) :
    Reply FollowersBody :=
  let userId := req.userId
  let followers := sortCreatedAtDesc (Follow.find ⟨.unset, .eq userId⟩ follows)
  .json 200 ⟨true, followers.map (fun f => populate users f.follower), followers.length⟩

/-- Embeds `getFollowing`. -/
def getFollowing (users : List UserDoc) (req : Req) (follows : FollowColl) :
    Reply FollowingBody :=
  let userId := req.userId
  let following := sortCreatedAtDesc (Follow.find ⟨.eq userId, .unset⟩ follows)
  .json 200 ⟨true, following.map (fun f => populate users f.following), following.length⟩

/-- Embeds `checkFollowStatus`; without `req.user` the read of `req.user._id`
throws and the `catch` answers 500. -/
def checkFollowStatus (req : Req) (follows : FollowColl) : Reply StatusBody :=
  let userId := req.userId
  match req.user with
  | .absent => .next (handleError 500 typeErrorMessage)
  | .present followerId =>
    let isFollowing := Follow.findOne ⟨.ofOption followerId, .eq userId⟩ follows
    .json 200 ⟨true, isFollowing.isSome⟩

/-- Embeds `getFollowStats`. -/
def getFollowStats (req : Req) (follows : FollowColl) : Reply StatsBody :=
  let userId := req.userId
  let followersCount := Follow.countDocuments ⟨.unset, .eq userId⟩ follows
  let followingCount := Follow.countDocuments ⟨.eq userId, .unset⟩ follows
  .json 200 ⟨true, followersCount, followingCount⟩

/-- The collections a run of sequential `followUser` and `unfollowUser` calls
can produce from the empty collection. -/
inductive Reachable : FollowColl → Prop where
  | empty : Reachable FollowColl.empty
  | follow (casts : String → Bool) (notifyFollow : String → String → Except String Unit)
      (users : List UserDoc) (now : Nat) (req : Req) {c : FollowColl} :
      Reachable c → Reachable (followUser casts notifyFollow users now req c).follows
  | unfollow (casts : String → Bool) (req : Req) {c : FollowColl} :
      Reachable c → Reachable (unfollowUser casts req c).follows

/-- The invariant of the data model: at most one edge per ordered pair, and no
edge from a user to themselves. -/
def FollowColl.EdgeInvariant (c : FollowColl) : Prop :=
  (c.docs.map (fun d => (d.follower, d.following))).Nodup ∧ ∀ d ∈ c.docs, d.follower ≠ d.following

/-! ## Example data -/

/-- A notification collaborator that succeeds. -/
def notifyOk : String → String → Except String Unit := fun _ _ => .ok ()

/-- A notification collaborator that throws. -/
def notifyThrows : String → String → Except String Unit := fun _ _ => .error "down"

/-- A store that casts every text to an `_id` but `not-an-id`. -/
def exampleCasts : String → Bool := fun s => !decide (s = "not-an-id")

/-- A user collection holding the users `a` and `t`. -/
def exampleUsers : List UserDoc :=
  [⟨"a", "A", "", "a@x", "aa"⟩, ⟨"t", "T", "", "t@x", "tt"⟩]

/-- A collection holding one edge `a → t`. -/
def oneEdge : FollowColl := ⟨[⟨1, "a", "t", 7⟩], by decide⟩

/-- A collection holding the self edge `a → a`. -/
def selfEdge : FollowColl := ⟨[⟨1, "a", "a", 7⟩], by decide⟩

/-- A collection with three edges towards `t` and one from `t`. -/
def fourEdges : FollowColl :=
  ⟨[⟨1, "a", "t", 7⟩, ⟨2, "b", "t", 9⟩, ⟨3, "t", "a", 8⟩, ⟨4, "z", "t", 3⟩], by decide⟩

instance (c : FollowColl) : Decidable c.EdgeInvariant := by
  unfold FollowColl.EdgeInvariant
  infer_instance

instance {ε α : Type} [DecidableEq ε] [DecidableEq α] : DecidableEq (Except ε α)
  | .ok a, .ok b =>
    if h : a = b then isTrue (by rw [h]) else isFalse (fun e => h (by injection e))
  | .error a, .error b =>
    if h : a = b then isTrue (by rw [h]) else isFalse (fun e => h (by injection e))
  | .ok _, .error _ => isFalse (fun e => by cases e)
  | .error _, .ok _ => isFalse (fun e => by cases e)

/-- Whether the collection holds an edge `a → t`. -/
def FollowColl.hasEdge (c : FollowColl) (a t : String) : Prop :=
  ∃ d ∈ c.docs, d.follower = a ∧ d.following = t

instance (c : FollowColl) (a t : String) : Decidable (c.hasEdge a t) := by
  unfold FollowColl.hasEdge
  infer_instance

/-! ## JavaScript values -/

/-- A JavaScript value, as far as the mailer tells values apart.  Numbers are
integers here; only their truthiness is ever read. -/
inductive JsVal where
  | undefined
  | null
  | bool (b : Bool)
  | num (n : Int)
  | str (s : String)
  | arr (items : List JsVal)
  | obj (fields : List (String × JsVal))

/-- JavaScript truthiness: `undefined`, `null`, `false`, `0` and the empty
string are falsy, arrays and objects are truthy. -/
def JsVal.truthy : JsVal → Bool
  | .undefined => false
  | .null => false
  | .bool b => b
  | .num n => !decide (n = 0)
  | .str s => !decide (s = "")
  | .arr _ => true
  | .obj _ => true

/-- The `typeof` operator. -/
def JsVal.typeof : JsVal → String
  | .undefined => "undefined"
  | .null => "object"
  | .bool _ => "boolean"
  | .num _ => "number"
  | .str _ => "string"
  | .arr _ => "object"
  | .obj _ => "object"

/-- `Array.isArray`. -/
def JsVal.isArray : JsVal → Bool
  | .arr _ => true
  | _ => false

/-- Property read `v.key` on a value that is not null or undefined: the value
stored under the key in an object, `undefined` everywhere else. -/
def JsVal.get (v : JsVal) (key : String) : JsVal :=
  match v with
  | .obj fields => (fields.lookup key).getD .undefined
  | _ => .undefined

/-- Whether an object has the key as own property. -/
def JsVal.hasKey (v : JsVal) (key : String) : Bool :=
  match v with
  | .obj fields => (fields.lookup key).isSome
  | _ => false

/-- A thrown `Error`: its `message` and `response?.body` (`undefined` on a
plain `new Error(message)`). -/
structure JsError where
  message : String
  responseBody : JsVal

/-- Embeds `new Error(message)`. -/
def newError (message : String) : JsError := ⟨message, .undefined⟩

/-- Embeds `entries.map(callback)` for a callback that may throw: the results
in order, or the first error thrown. -/
def mapThrowing {α β ε : Type} (callback : α → Except ε β) : List α → Except ε (List β)
  | [] => .ok []
  | entry :: entries =>
    match callback entry with
    | .error e => .error e
    | .ok r =>
      match mapThrowing callback entries with
      | .error e => .error e
      | .ok rs => .ok (r :: rs)

/-! ## The mailer -/

/-- The callback `normalizeRecipients` maps over the entries. -/
def normalizeEntry (entry : JsVal) : Except JsError JsVal :=
  if entry.typeof = "string" then
    .ok (.obj [("email", entry)])
  else if entry.truthy && decide (entry.typeof = "object") && (entry.get "email").truthy then
    .ok (.obj [("email", entry.get "email"), ("name", entry.get "name")])
  else
    .error (newError "Invalid recipient format supplied to mailer")

/-- Embeds `normalizeRecipients`. -/
def normalizeRecipients (recipient : JsVal) : Except JsError (List JsVal) :=
  if !recipient.truthy then
    .error (newError "No recipient specified for email delivery")
  else
    let entries := match recipient with
      | .arr items => items
      | single => [single]
    mapThrowing normalizeEntry entries

/-- The variables of `process.env` the mailer reads; `none` when unset. -/
structure ProcessEnv where
  BREVO_SENDER_EMAIL : Option String
  BREVO_SENDER_NAME : Option String
  BREVO_API_KEY : Option String
  BREVO_API_BASE_URL : Option String
deriving DecidableEq, Repr

/-- The client built at module load: its API key and, when set, its base path. -/
structure BrevoClient where
  apiKey : String
  basePath : Option String
deriving DecidableEq, Repr

/-- The module-level state of `mailer.js` after load. -/
structure MailerModule where
  fromAddress : String
  senderName : String
  brevoClient : Option BrevoClient
deriving DecidableEq, Repr

/-- Embeds `process.env.X || fallback`. -/
def orFallback (value : Option String) (fallback : String) : String :=
  match value with
  | none => fallback
  | some v => if truthy (some v) then v else fallback

/-- Embeds the top-level statements of `mailer.js`. -/
def loadMailer (env : ProcessEnv) : MailerModule :=
  let fromAddress := orFallback env.BREVO_SENDER_EMAIL "no-reply@shabdsetu.app"
  let senderName := orFallback env.BREVO_SENDER_NAME "ShabdSetu"
  let brevoClient : Option BrevoClient :=
    match env.BREVO_API_KEY with
    | none => none
    | some key =>
      if truthy (some key) then
        some ⟨key, if truthy env.BREVO_API_BASE_URL then env.BREVO_API_BASE_URL else none⟩
      else none
  ⟨fromAddress, senderName, brevoClient⟩

/-- The `sender` of a message. -/
structure Sender where
  email : String
  name : String
deriving DecidableEq, Repr

/-- The fields `deliverEmail` sets on a `SendSmtpEmail`; `to_` is its `to`. -/
structure SendSmtpEmail where
  subject : String
  htmlContent : String
  sender : Sender
  to_ : List JsVal

/-- What one call of `deliverEmail` leaves behind: the messages handed to
`brevoClient.sendTransacEmail`, the argument lists of the `console.error`
calls, and the value returned or the error thrown. -/
structure MailOutcome where
  sent : List SendSmtpEmail
  logged : List (List JsVal)
  result : Except JsError JsVal

/-- Embeds `deliverEmail`.  `sendTransacEmail` is the vendor primitive
(`.error e` when its promise rejects with `e`). -/
def deliverEmail (mailer : MailerModule)
    (sendTransacEmail : SendSmtpEmail → Except JsError JsVal)
    (to_ : JsVal) (subject html : String) : MailOutcome :=
  match mailer.brevoClient with
  | none =>
    ⟨[], [[.str "Email service not configured: BREVO_API_KEY missing"]],
      .error (newError "Email service not configured")⟩
  | some _ =>
    match normalizeRecipients to_ with
    | .error e => ⟨[], [], .error e⟩
    | .ok recipients =>
      let message : SendSmtpEmail :=
        ⟨subject, html, ⟨mailer.fromAddress, mailer.senderName⟩, recipients⟩
      match sendTransacEmail message with
      | .ok result => ⟨[message], [], .ok result⟩
      | .error error =>
        ⟨[message],
          [[.str "Brevo API error:",
            if error.responseBody.truthy then error.responseBody else .str error.message]],
          .error error⟩

/-- Embeds the search `String.prototype.replace` makes for a string pattern:
the text before and after the first occurrence, or `none` when there is none. -/
def splitFirst (pattern : List Char) : List Char → Option (List Char × List Char)
  | [] => if pattern = [] then some ([], []) else none
  | c :: cs =>
    if pattern.isPrefixOf (c :: cs) then some ([], (c :: cs).drop pattern.length)
    else
      match splitFirst pattern cs with
      | none => none
      | some (before, after) => some (c :: before, after)

/-- Embeds the expansion `String.prototype.replace` applies to a replacement
string when the pattern is a string: `$$` stands for `$`, `$&` for the matched
text, `$` with a backtick for the text before the match, `$` with an
apostrophe for the text after it; every other character stands for itself. -/
def getSubstitution (matched before after : List Char) : List Char → List Char
  | [] => []
  | [c] => [c]
  | c :: d :: rest =>
    if c = '$' then
      if d = '$' then '$' :: getSubstitution matched before after rest
      else if d = '&' then matched ++ getSubstitution matched before after rest
      else if d = Char.ofNat 96 then before ++ getSubstitution matched before after rest
      else if d = Char.ofNat 39 then after ++ getSubstitution matched before after rest
      else c :: getSubstitution matched before after (d :: rest)
    else c :: getSubstitution matched before after (d :: rest)

/-- Embeds `text.replace(pattern, replacement)` for a string pattern and a
string replacement. -/
def jsReplace (text pattern replacement : String) : String :=
  match splitFirst pattern.data text.data with
  | none => text
  | some (before, after) =>
    String.mk (before ++ getSubstitution pattern.data before after replacement.data ++ after)

/-- Embeds `sendOtpEmail`; the template of `EmailTemplate.js` is a parameter.
`expiresAt` is not read. -/
def sendOtpEmail (mailer : MailerModule)
    (sendTransacEmail : SendSmtpEmail → Except JsError JsVal)
    (Verification_Email_Template : String) (to_ : JsVal) (code : String) : MailOutcome :=
  let html := jsReplace Verification_Email_Template "{verificationCode}" code
  deliverEmail mailer sendTransacEmail to_ "ShabdSetu - Email verification code" html

/-- Embeds `sendPasswordResetEmail`; the template of `EmailTemplate.js` is a
parameter. -/
def sendPasswordResetEmail (mailer : MailerModule)
    (sendTransacEmail : SendSmtpEmail → Except JsError JsVal)
    (Password_Reset_Email_Template : String) (to_ : JsVal) (code : String) : MailOutcome :=
  let html := jsReplace Password_Reset_Email_Template "{verificationCode}" code
  deliverEmail mailer sendTransacEmail to_ "ShabdSetu - Password reset code" html

/-- The text a vendor message carries as `htmlContent`, for each message sent. -/
def MailOutcome.bodies (o : MailOutcome) : List String :=
  o.sent.map SendSmtpEmail.htmlContent

/-! ## The view counter

A run of the effect of `ViewCount.jsx` is taken together with the continuation
of the `fetchAndAddView` call it starts; runs do not overlap.  What the
network answers and whether the component is still mounted when the answer
arrives are parameters of a run. -/

/-- The `blogId` prop. -/
inductive BlogId where
  | undefined
  | null
  | str (s : String)
deriving DecidableEq, Repr

/-- JavaScript truthiness of the `blogId` prop. -/
def BlogId.truthy : BlogId → Bool
  | .undefined => false
  | .null => false
  | .str s => !decide (s = "")

/-- The text a template literal puts for the `blogId` prop. -/
def BlogId.toText : BlogId → String
  | .undefined => "undefined"
  | .null => "null"
  | .str s => s

/-- A call of `fetch`: the method, the URL, and the `blogId` of the JSON body
when there is a body. -/
structure FetchCall where
  method : String
  url : String
  body : Option BlogId
deriving DecidableEq, Repr

/-- The increment request: POST `/view/add-view` with body `{ blogId }`. -/
def addViewCall (apiUrl : String) (blogId : BlogId) : FetchCall :=
  ⟨"POST", apiUrl ++ "/view/add-view", some blogId⟩

/-- The read request: GET `/view/:blogId`. -/
def getCountCall (apiUrl : String) (blogId : BlogId) : FetchCall :=
  ⟨"GET", apiUrl ++ "/view/" ++ blogId.toText, none⟩

/-- The state and refs of a mounted `ViewCount`. -/
structure ViewCountState where
  viewCount : Nat
  loading : Bool
  hasAddedViewRef : Bool
  lastBlogIdRef : BlogId
deriving DecidableEq, Repr

/-- A fresh component: `useState(0)`, `useState(true)`, `useRef(false)`,
`useRef(null)`. -/
def ViewCountState.fresh : ViewCountState := ⟨0, true, false, .null⟩

/-- The props and selected store values an effect run closes over. -/
structure EffectInput where
  blogId : BlogId
  addView : Bool
  isLoggedIn : Bool
  rehydrated : Bool
deriving DecidableEq, Repr

/-- The answer to the read request: the `fetch` promise rejects, or resolves
to a response with its `ok` flag whose `json()` rejects or yields
`data.viewCount || 0`. -/
inductive CountAnswer where
  | rejected (error : String)
  | response (ok : Bool) (json : Except String Nat)
deriving Repr

/-- What happens around one effect run: the error the increment request
rejects with (`none` when it resolves), the answer to the read request, and
the value of `isMounted` when the answers arrive. -/
structure Network where
  addViewError : Option String
  count : CountAnswer
  isMounted : Bool
deriving Repr

/-- What one effect run leaves behind: the component state, the `fetch` calls
in the order issued, and the `console.error` lines. -/
structure EffectOutcome where
  state : ViewCountState
  requests : List FetchCall
  logged : List String
deriving Repr

/-- Embeds `fetchAndAddView`. -/
def fetchAndAddView (apiUrl : String) (input : EffectInput) (net : Network)
    (st : ViewCountState) : EffectOutcome :=
  let added : EffectOutcome :=
    if input.addView && input.isLoggedIn && !st.hasAddedViewRef then
      ⟨{ st with hasAddedViewRef := true }, [addViewCall apiUrl input.blogId],
        match net.addViewError with
        | some error => ["Failed to add view " ++ error]
        | none => []⟩
    else ⟨st, [], []⟩
  let requests := added.requests ++ [getCountCall apiUrl input.blogId]
  let tried : ViewCountState × List String :=
    match net.count with
    | .rejected error => (added.state, added.logged ++ ["Error with view count: " ++ error])
    | .response ok json =>
      if ok && net.isMounted then
        match json with
        | .ok viewCount => ({ added.state with viewCount := viewCount }, added.logged)
        | .error error => (added.state, added.logged ++ ["Error with view count: " ++ error])
      else (added.state, added.logged)
  let final := if net.isMounted then { tried.1 with loading := false } else tried.1
  ⟨final, requests, tried.2⟩

/-- Embeds the block `if (lastBlogIdRef.current !== blogId) { ... }`. -/
def syncRefs (blogId : BlogId) (st : ViewCountState) : ViewCountState :=
  if st.lastBlogIdRef ≠ blogId then
    { st with lastBlogIdRef := blogId, hasAddedViewRef := false }
  else st

/-- Embeds the body of the `useEffect` callback. -/
def runEffect (apiUrl : String) (input : EffectInput) (net : Network)
    (st : ViewCountState) : EffectOutcome :=
  let st := syncRefs input.blogId st
  if input.blogId.truthy && (!input.addView || input.rehydrated) then
    fetchAndAddView apiUrl input net st
  else ⟨st, [], []⟩

/-- Effect runs one after the other: the final state and the requests of each
run. -/
def runEffects (apiUrl : String) :
    List (EffectInput × Network) → ViewCountState → ViewCountState × List (List FetchCall)
  | [], st => (st, [])
  | (input, net) :: later, st =>
    let out := runEffect apiUrl input net st
    let next := runEffects apiUrl later out.state
    (next.1, out.requests :: next.2)

/-- A network on which every request resolves. -/
def netOk : Network := ⟨none, .response true (.ok 7), true⟩

/-- A network on which the increment request rejects. -/
def netAddViewFails : Network := ⟨some "add view failed", .response true (.ok 9), true⟩

/-- An `{ email, name }` record. -/
def recipientRecord (email name : JsVal) : JsVal :=
  .obj [("email", email), ("name", name)]

/-- The recipient `{ email: s }` a string entry is turned into. -/
def emailOnly (s : String) : JsVal :=
  .obj [("email", .str s)]

/-- A module loaded with an API key and a sender address, as in the tests. -/
def exampleMailer : MailerModule :=
  loadMailer ⟨some "test@shabdsetu.app", none, some "test-api-key", none⟩

/-- A vendor primitive that resolves. -/
def sendResolves : SendSmtpEmail → Except JsError JsVal :=
  fun _ => .ok (.obj [("messageId", .str "test-id")])

/-- A vendor primitive that rejects with an error carrying a response body. -/
def sendRejects : SendSmtpEmail → Except JsError JsVal :=
  fun _ => .error ⟨"API Error", .obj [("message", .str "Invalid API key")]⟩

/-- The number of increment requests (POST) in the requests of a sequence of
effect runs. -/
def incrementCount (runs : List (List FetchCall)) : Nat :=
  (runs.map fun reqs => reqs.countP (fun call => decide (call.method = "POST"))).sum

/-- The query `{ follower: req.user._id, following: req.params.userId }` that
`unfollowUser` and `checkFollowStatus` build from a request; for a present
actor it is the query of `followUser` as well. -/
def pairQuery (req : Req) : FollowQuery :=
  ⟨.ofOption req.user_id, .eq req.userId⟩

/-- The edges of a collection other than those from the actor of the request
to its target, in natural order. -/
def otherEdges (req : Req) (c : FollowColl) : List FollowDoc :=
  c.docs.filter (fun d => !(pairQuery req).sat d)

/-- How a list of documents differs after a call for the request: not at
all, or by one erased edge from the actor to the target, or by one such edge
appended. -/
def EdgeChange (req : Req) (before after : List FollowDoc) : Prop :=
  after = before
  ∨ (∃ d ∈ before, (pairQuery req).sat d = true ∧ after = before.erase d)
  ∨ (∃ d, (pairQuery req).sat d = true ∧ after = before ++ [d])

/-- The entries `normalizeRecipients` maps over: the elements of an array, or
the single value. -/
def entriesOf (recipient : JsVal) : List JsVal :=
  match recipient with
  | .arr items => items
  | single => [single]

/-- Two recipients with the same `email` and the same `name`. -/
def sameRecipient (r r' : JsVal) : Prop :=
  r.get "email" = r'.get "email" ∧ r.get "name" = r'.get "name"

/-! ## Post counts of a category

`getPostCount` of `pages/Category/CategoryDetails.jsx`.  The built-ins it calls
that depend on more than the shape of a value are parameters. -/

/-- The built-ins taken as parameters: `String.prototype.toLowerCase`,
`toString()` of a truthy value that is not a string, and `===` between two
objects or arrays (identity of reference). -/
structure JsRuntime where
  toLowerCase : String → String
  toText : JsVal → String
  sameReference : JsVal → JsVal → Bool

/-- Embeds `a === b`. -/
def strictEquals (rt : JsRuntime) (a b : JsVal) : Bool :=
  match a, b with
  | .undefined, .undefined => true
  | .null, .null => true
  | .bool x, .bool y => decide (x = y)
  | .num x, .num y => decide (x = y)
  | .str x, .str y => decide (x = y)
  | .arr x, .arr y => rt.sameReference (.arr x) (.arr y)
  | .obj x, .obj y => rt.sameReference (.obj x) (.obj y)
  | _, _ => false

/-- Embeds the call `v.toLowerCase()`: a `TypeError` when `v` is not a string. -/
def callToLowerCase (rt : JsRuntime) (v : JsVal) : Except JsError String :=
  match v with
  | .str s => .ok (rt.toLowerCase s)
  | _ => .error (newError "toLowerCase is not a function")

/-- Embeds `a ?? b`. -/
def nullish (a b : JsVal) : JsVal :=
  match a with
  | .undefined => b
  | .null => b
  | v => v

/-- Embeds the test `getPostCount` makes on one category entry `c` of a blog
(the same in its three places): whether `matched++` is reached.  `id` is
`category?._id` and `name` the lowered name of the category. -/
def entryMatches (rt : JsRuntime) (id : JsVal) (name : String) (c : JsVal) :
    Except JsError Bool :=
  if !c.truthy then .ok false
  else if c.typeof = "string" then
    if name ≠ "" then
      match callToLowerCase rt c with
      | .error e => .error e
      | .ok lowered => .ok (decide (lowered = name))
    else .ok false
  else if c.typeof = "object" then
    if id.truthy && (strictEquals rt (c.get "_id") id || strictEquals rt (c.get "id") id) then
      .ok true
    else if (c.get "name").truthy && decide (name ≠ "") then
      match callToLowerCase rt (c.get "name") with
      | .error e => .error e
      | .ok lowered => .ok (decide (lowered = name))
    else .ok false
  else .ok false

/-- Embeds the loops `for (const c of ...) { ...; matched++; break }`: whether
some entry, the first in order, reaches `matched++`. -/
def anyEntryMatches (rt : JsRuntime) (id : JsVal) (name : String) :
    List JsVal → Except JsError Bool
  | [] => .ok false
  | c :: rest =>
    match entryMatches rt id name c with
    | .error e => .error e
    | .ok true => .ok true
    | .ok false => anyEntryMatches rt id name rest

/-- Embeds the body of `for (const blog of blogs)`: whether the blog adds one
to `matched`. -/
def blogMatches (rt : JsRuntime) (id : JsVal) (name : String) (blog : JsVal) :
    Except JsError Bool :=
  match blog.get "categories" with
  | .arr (c :: cs) => anyEntryMatches rt id name (c :: cs)
  | _ =>
    let c := blog.get "category"
    if !c.truthy then .ok false
    else
      match c with
      | .arr entries => anyEntryMatches rt id name entries
      | single => entryMatches rt id name single

/-- Embeds the loop `for (const blog of blogs)`: the final `matched`. -/
def countMatched (rt : JsRuntime) (id : JsVal) (name : String) :
    List JsVal → Except JsError Nat
  | [] => .ok 0
  | blog :: rest =>
    match blogMatches rt id name blog with
    | .error e => .error e
    | .ok hit =>
      match countMatched rt id name rest with
      | .error e => .error e
      | .ok matched => .ok (if hit then matched + 1 else matched)

/-- Embeds `(category?.name || '')?.toString().toLowerCase()`. -/
def loweredName (rt : JsRuntime) (category : JsVal) : String :=
  match category.get "name" with
  | .str s => rt.toLowerCase s
  | v => if v.truthy then rt.toLowerCase (rt.toText v) else rt.toLowerCase ""

/-- Embeds `getPostCount(category, blogs)`; `blogs` is `undefined` when the
argument is left out. -/
def getPostCount (rt : JsRuntime) (category blogs : JsVal) : Except JsError Int :=
  match category.get "blogs" with
  | .arr items => .ok items.length
  | _ =>
    let blogs := match blogs with
      | .undefined => JsVal.arr []
      | given => given
    match blogs with
    | .arr (blog :: rest) =>
      let id := category.get "_id"
      let name := loweredName rt category
      match countMatched rt id name (blog :: rest) with
      | .error e => .error e
      | .ok matched => .ok matched
    | _ =>
      let count := nullish (nullish (nullish (nullish (category.get "blogCount")
        (category.get "postCount")) (category.get "postsCount")) (category.get "count")) (.num 0)
      match count with
      | .num n => .ok n
      | _ => .ok 0

/-- The category entries of a blog that `getPostCount` looks at. -/
def entriesOfBlog (blog : JsVal) : List JsVal :=
  match blog.get "categories" with
  | .arr (c :: cs) => c :: cs
  | _ =>
    match blog.get "category" with
    | .arr entries => entries
    | single => [single]

/-- A category entry whose `name`, when it has one, is a string. -/
def nameIsText (c : JsVal) : Prop :=
  (c.get "name").truthy = true → (c.get "name").typeof = "string"

/-- A runtime for examples: `toLowerCase` lowers the letters `A` to `Z`. -/
def exampleRuntime : JsRuntime :=
  ⟨fun s => String.mk (s.data.map Char.toLower), fun _ => "[object Object]", fun _ _ => false⟩

/-- A category without a `blogs` array. -/
def techCategory : JsVal :=
  .obj [("_id", .str "c1"), ("name", .str "Tech")]

/-- Two blogs: the first names the category three times over (by name, by
name in capitals, by id), the second not at all. -/
def techBlogs : List JsVal :=
  [.obj [("categories", .arr [.str "tech", .str "TECH", .obj [("_id", .str "c1")]])],
    .obj [("category", .obj [("_id", .str "c2"), ("name", .str "Life")])]]


/-! ## Auxiliary facts -/

theorem sat_pair (a t : String) (d : FollowDoc) :
    (FollowQuery.mk (.eq a) (.eq t)).sat d = (decide (d.follower = a) && decide (d.following = t)) :=
  rfl

theorem sat_pair_iff (a t : String) (d : FollowDoc) :
    (FollowQuery.mk (.eq a) (.eq t)).sat d = true ↔ d.follower = a ∧ d.following = t := by
  simp [sat_pair]

theorem findOne_isSome_iff (a t : String) (c : FollowColl) :
    (Follow.findOne ⟨.eq a, .eq t⟩ c).isSome = true ↔ c.hasEdge a t := by
  simp only [Follow.findOne, List.find?_isSome, sat_pair_iff, FollowColl.hasEdge]

theorem findOne_eq_none_iff (a t : String) (c : FollowColl) :
    Follow.findOne ⟨.eq a, .eq t⟩ c = none ↔ ¬ c.hasEdge a t := by
  rw [← findOne_isSome_iff]
  cases Follow.findOne ⟨.eq a, .eq t⟩ c <;> simp

theorem truthy_some {a : String} (ha : a ≠ "") : truthy (some a) = true := by
  simp [truthy, ha]

theorem eraseP_id_eq_erase {d : FollowDoc} :
    ∀ {l : List FollowDoc}, (l.map FollowDoc._id).Nodup → d ∈ l →
      l.eraseP (fun x => decide (x._id = d._id)) = l.erase d
  | [], _, h => by cases h
  | x :: xs, hn, h => by
    by_cases hx : x = d
    · subst hx
      simp
    · have hd : d ∈ xs := by
        rcases List.mem_cons.1 h with e | e
        · exact absurd e.symm hx
        · exact e
      rw [List.map_cons, List.nodup_cons] at hn
      have hid : x._id ≠ d._id := fun e => hn.1 (e ▸ List.mem_map_of_mem FollowDoc._id hd)
      rw [List.eraseP_cons_of_neg (by simpa using hid), List.erase_cons_tail (by simpa using hx),
        eraseP_id_eq_erase hn.2 hd]

theorem eraseP_eq_erase_of_find {p : FollowDoc → Bool} {d : FollowDoc} :
    ∀ {l : List FollowDoc}, l.find? p = some d → l.eraseP p = l.erase d
  | [], h => by cases h
  | x :: xs, h => by
    by_cases hp : p x = true
    · rw [List.find?_cons_of_pos _ hp] at h
      cases h
      simp [hp]
    · rw [List.find?_cons_of_neg _ hp] at h
      have hx : x ≠ d := fun e => hp (e ▸ List.find?_some h)
      rw [List.eraseP_cons_of_neg hp, List.erase_cons_tail (by simpa using hx),
        eraseP_eq_erase_of_find h]

theorem countP_erase_of_sat {p : FollowDoc → Bool} {d : FollowDoc} {l : List FollowDoc}
    (hd : d ∈ l) (hp : p d = true) : (l.erase d).countP p + 1 = l.countP p := by
  rw [(List.perm_cons_erase hd).countP_eq p, List.countP_cons_of_pos _ _ hp]

theorem hasEdge_iff_count_pos (a t : String) (c : FollowColl) :
    c.hasEdge a t ↔ 0 < Follow.countDocuments ⟨.eq a, .eq t⟩ c := by
  simp only [Follow.countDocuments, List.countP_pos_iff, sat_pair_iff, FollowColl.hasEdge]

/-- The delete path of `followUser`: the document `findOne` returned is removed. -/
theorem followUser_delete_path (casts : String → Bool)
    (notifyFollow : String → String → Except String Unit)
    (users : List UserDoc) (now : Nat) {a t : String} (c : FollowColl) {u : UserDoc}
    {d : FollowDoc} (ha : a ≠ "") (hat : a ≠ t) (hu : User.findById casts t users = .ok (some u))
    (hd : Follow.findOne ⟨.eq a, .eq t⟩ c = some d) :
    (followUser casts notifyFollow users now ⟨t, .present (some a)⟩ c).notified = []
    ∧ (followUser casts notifyFollow users now ⟨t, .present (some a)⟩ c).reply
        = .json 200 ⟨true, false, "Unfollowed user."⟩
    ∧ (followUser casts notifyFollow users now ⟨t, .present (some a)⟩ c).follows.docs = c.docs.erase d := by
  simp only [followUser, followUserTry, truthy_some ha, hat, hu, hd]
  simp only [Follow.findByIdAndDelete, Bool.not_true, Bool.false_eq_true, if_false, true_and]
  exact eraseP_id_eq_erase c.ids_nodup (List.mem_of_find?_eq_some hd)

/-- The create path of `followUser`: one document is appended, `notifyFollow`
is called once, and its result does not reach the answer. -/
theorem followUser_create_path (casts : String → Bool)
    (notifyFollow : String → String → Except String Unit)
    (users : List UserDoc) (now : Nat) {a t : String} (c : FollowColl) {u : UserDoc}
    (ha : a ≠ "") (hat : a ≠ t) (hu : User.findById casts t users = .ok (some u))
    (hf : Follow.findOne ⟨.eq a, .eq t⟩ c = none) :
    (followUser casts notifyFollow users now ⟨t, .present (some a)⟩ c).notified = [(a, t)]
    ∧ (followUser casts notifyFollow users now ⟨t, .present (some a)⟩ c).reply
        = .json 201 ⟨true, true, "Successfully followed user."⟩
    ∧ (followUser casts notifyFollow users now ⟨t, .present (some a)⟩ c).follows.docs
        = c.docs ++ [⟨Follow.freshId c.docs, a, t, now⟩] := by
  simp only [followUser, followUserTry, truthy_some ha, hat, hu, hf]
  cases notifyFollow a t <;> simp [Follow.create]

/-- How one toggle changes the number of edges `a → t`. -/
theorem count_followUser (casts : String → Bool)
    (notifyFollow : String → String → Except String Unit)
    (users : List UserDoc) (now : Nat) {a t : String} (c : FollowColl) {u : UserDoc}
    (ha : a ≠ "") (hat : a ≠ t) (hu : User.findById casts t users = .ok (some u)) :
    Follow.countDocuments ⟨.eq a, .eq t⟩ (followUser casts notifyFollow users now ⟨t, .present (some a)⟩ c).follows
      = if Follow.countDocuments ⟨.eq a, .eq t⟩ c = 0 then 1
        else Follow.countDocuments ⟨.eq a, .eq t⟩ c - 1 := by
  cases hd : Follow.findOne ⟨.eq a, .eq t⟩ c with
  | none =>
    have h0 : Follow.countDocuments ⟨.eq a, .eq t⟩ c = 0 := by
      have := (findOne_eq_none_iff a t c).1 hd
      rw [hasEdge_iff_count_pos] at this
      omega
    have hs := (followUser_create_path casts notifyFollow users now c ha hat hu hd).2.2
    rw [if_pos h0]
    simp only [Follow.countDocuments] at h0 ⊢
    rw [hs, List.countP_append, h0]
    simp [sat_pair]
  | some d =>
    have hmem : d ∈ c.docs := List.mem_of_find?_eq_some hd
    have hsat : (FollowQuery.mk (.eq a) (.eq t)).sat d = true := List.find?_some hd
    have hs := (followUser_delete_path casts notifyFollow users now c ha hat hu hd).2.2
    have hc := countP_erase_of_sat hmem hsat
    simp only [Follow.countDocuments]
    rw [hs]
    split <;> omega

theorem checkFollowStatus_eq (a t : String) (c : FollowColl) :
    checkFollowStatus ⟨t, .present (some a)⟩ c
      = .json 200 ⟨true, decide (0 < Follow.countDocuments ⟨.eq a, .eq t⟩ c)⟩ := by
  have h : (Follow.findOne ⟨.eq a, .eq t⟩ c).isSome
      = decide (0 < Follow.countDocuments ⟨.eq a, .eq t⟩ c) := by
    rw [Bool.eq_iff_iff, findOne_isSome_iff, hasEdge_iff_count_pos]
    simp
  simp only [checkFollowStatus, FieldCond.ofOption, h]

theorem countP_pair_le_one (a t : String) :
    ∀ l : List FollowDoc, (l.map (fun d => (d.follower, d.following))).Nodup →
      l.countP (FollowQuery.mk (.eq a) (.eq t)).sat ≤ 1
  | [], _ => Nat.zero_le 1
  | x :: xs, h => by
    rw [List.map_cons, List.nodup_cons] at h
    by_cases hx : (FollowQuery.mk (.eq a) (.eq t)).sat x = true
    · have hz : xs.countP (FollowQuery.mk (.eq a) (.eq t)).sat = 0 := by
        rw [List.countP_eq_zero]
        intro d hd hs
        have h1 := (sat_pair_iff a t x).1 hx
        have h2 := (sat_pair_iff a t d).1 hs
        apply h.1
        rw [List.mem_map]
        exact ⟨d, hd, by rw [h1.1, h1.2, h2.1, h2.2]⟩
      rw [List.countP_cons_of_pos _ _ hx, hz]
    · rw [List.countP_cons_of_neg _ _ hx]
      exact countP_pair_le_one a t xs h.2

theorem count_le_one_of_edgeInvariant {c : FollowColl} (h : c.EdgeInvariant) (a t : String) :
    Follow.countDocuments ⟨.eq a, .eq t⟩ c ≤ 1 :=
  countP_pair_le_one a t c.docs h.1

theorem findById_ok_casts {casts : String → Bool} {t : String} {users : List UserDoc}
    {found : Option UserDoc} (h : User.findById casts t users = .ok found) :
    casts t = true := by
  unfold User.findById at h
  split at h
  · assumption
  · cases h

theorem findById_of_not_casts {casts : String → Bool} {t : String} (users : List UserDoc)
    (h : casts t = false) :
    User.findById casts t users = .error (castErrorMessage t "_id" "User") := by
  simp [User.findById, h]

/-- A request without `req.user`: the read of `req.user._id` throws and the
`catch` answers 500. -/
theorem followUser_absent (casts : String → Bool)
    (notifyFollow : String → String → Except String Unit)
    (users : List UserDoc) (now : Nat) (t : String) (c : FollowColl) :
    followUser casts notifyFollow users now ⟨t, .absent⟩ c
      = ⟨c, [], [], .next (handleError 500 typeErrorMessage)⟩ :=
  rfl

/-- A present actor and a target the store cannot cast: `User.findById` throws
and the `catch` answers 500. -/
theorem followUser_cast_error (casts : String → Bool)
    (notifyFollow : String → String → Except String Unit)
    (users : List UserDoc) (now : Nat) {a t : String} (c : FollowColl)
    (ha : a ≠ "") (hat : a ≠ t) (ht : casts t = false) :
    followUser casts notifyFollow users now ⟨t, .present (some a)⟩ c
      = ⟨c, [], [], .next (handleError 500 (castErrorMessage t "_id" "User"))⟩ := by
  simp only [followUser, followUserTry, truthy_some ha, hat, findById_of_not_casts users ht]
  simp

/-- Every run of `followUser` that does not take the delete or the create
path leaves the collection as it was. -/
theorem followUser_keeps_of_not_found (casts : String → Bool)
    (notifyFollow : String → String → Except String Unit)
    (users : List UserDoc) (now : Nat) {a t : String} (c : FollowColl)
    (h : ∀ u, User.findById casts t users ≠ .ok (some u)) :
    (followUser casts notifyFollow users now ⟨t, .present (some a)⟩ c).follows = c := by
  simp only [followUser, followUserTry]
  split
  · rename_i outcome heq
    split at heq
    · cases heq; rfl
    · split at heq
      · cases heq; rfl
      · split at heq
        · cases heq
        · cases heq; rfl
        · rename_i u hu
          exact absurd hu (h u)
  · rfl

theorem findOneAndDelete_sublist (q : FollowQuery) (c : FollowColl) :
    (Follow.findOneAndDelete q c).2.docs.Sublist c.docs :=
  List.eraseP_sublist c.docs

/-- A request without `req.user`: the read of `req.user._id` throws and the
`catch` of `unfollowUser` answers 500. -/
theorem unfollowUser_absent (casts : String → Bool) (t : String) (c : FollowColl) :
    unfollowUser casts ⟨t, .absent⟩ c = ⟨c, .next (handleError 500 typeErrorMessage)⟩ :=
  rfl

/-- A target the store cannot cast: `Follow.findOneAndDelete` throws and the
`catch` answers 500. -/
theorem unfollowUser_cast_error (casts : String → Bool) (actor : Option String) {t : String}
    (c : FollowColl) (ht : casts t = false) :
    unfollowUser casts ⟨t, .present actor⟩ c
      = ⟨c, .next (handleError 500 (castErrorMessage t "following" "Follow"))⟩ := by
  simp [unfollowUser, unfollowUserTry, Follow.castFilter, ht]

/-- A target the store can cast and no matching edge: 404, the collection as
it was. -/
theorem unfollowUser_none (casts : String → Bool) (actor : Option String) {t : String}
    (c : FollowColl) (ht : casts t = true)
    (hf : c.docs.find? (FollowQuery.mk (.ofOption actor) (.eq t)).sat = none) :
    unfollowUser casts ⟨t, .present actor⟩ c
      = ⟨c, .next (handleError 404 "You are not following this user.")⟩ := by
  have he : c.docs.eraseP (FollowQuery.mk (.ofOption actor) (.eq t)).sat = c.docs :=
    List.eraseP_of_forall_not (by simpa using hf)
  simp only [unfollowUser, unfollowUserTry, Follow.castFilter, ht, if_true,
    Follow.findOneAndDelete, hf]
  congr 1
  exact FollowColl.ext_docs he

/-- A target the store can cast and a matching edge: 200, the edge erased. -/
theorem unfollowUser_some (casts : String → Bool) (actor : Option String) {t : String}
    (c : FollowColl) {d : FollowDoc} (ht : casts t = true)
    (hf : c.docs.find? (FollowQuery.mk (.ofOption actor) (.eq t)).sat = some d) :
    (unfollowUser casts ⟨t, .present actor⟩ c).reply
        = .json 200 ⟨true, "Successfully unfollowed user."⟩
    ∧ (unfollowUser casts ⟨t, .present actor⟩ c).follows.docs = c.docs.erase d := by
  simp only [unfollowUser, unfollowUserTry, Follow.castFilter, ht, if_true,
    Follow.findOneAndDelete, hf, true_and]
  exact eraseP_eq_erase_of_find hf

/-- Every run of `unfollowUser` leaves the documents as they were, or erases
the first edge from the actor to the target. -/
theorem unfollowUser_docs (casts : String → Bool) (req : Req) (c : FollowColl) :
    (unfollowUser casts req c).follows.docs = c.docs
    ∨ ∃ d ∈ c.docs, (FollowQuery.mk (.ofOption req.user_id) (.eq req.userId)).sat d = true
        ∧ (unfollowUser casts req c).follows.docs = c.docs.erase d := by
  obtain ⟨t, user⟩ := req
  cases user with
  | absent => left; rfl
  | present actor =>
    cases ht : casts t with
    | false => left; rw [unfollowUser_cast_error casts actor c ht]
    | true =>
      cases hf : c.docs.find? (FollowQuery.mk (.ofOption actor) (.eq t)).sat with
      | none => left; rw [unfollowUser_none casts actor c ht hf]
      | some d =>
        right
        exact ⟨d, List.mem_of_find?_eq_some hf, List.find?_some hf,
          (unfollowUser_some casts actor c ht hf).2⟩

theorem unfollowUser_sublist (casts : String → Bool) (req : Req) (c : FollowColl) :
    (unfollowUser casts req c).follows.docs.Sublist c.docs := by
  rcases unfollowUser_docs casts req c with h | ⟨d, _, _, h⟩
  · rw [h]
  · rw [h]
    exact List.erase_sublist d c.docs

/-- Every run of `followUser` either keeps a sublist of the documents, or
appends one edge `a → t` with `a ≠ t` that the collection did not hold. -/
theorem followUser_docs_cases (casts : String → Bool)
    (notifyFollow : String → String → Except String Unit)
    (users : List UserDoc) (now : Nat) (req : Req) (c : FollowColl) :
    (followUser casts notifyFollow users now req c).follows.docs.Sublist c.docs
    ∨ ∃ a t, a ≠ t ∧ ¬ c.hasEdge a t
        ∧ (followUser casts notifyFollow users now req c).follows.docs
            = c.docs ++ [⟨Follow.freshId c.docs, a, t, now⟩] := by
  obtain ⟨t, user⟩ := req
  cases user with
  | absent => left; rw [followUser_absent]
  | present actor =>
    cases actor with
    | none => left; simp [followUser, followUserTry]
    | some a =>
      by_cases hfound : ∃ u, User.findById casts t users = .ok (some u)
      · obtain ⟨u, hu⟩ := hfound
        by_cases ha : a = ""
        · left; simp [followUser, followUserTry, truthy, ha]
        by_cases hat : a = t
        · subst hat; left; simp [followUser, followUserTry, truthy_some ha]
        cases hd : Follow.findOne ⟨.eq a, .eq t⟩ c with
        | some d =>
          left
          rw [(followUser_delete_path casts notifyFollow users now c ha hat hu hd).2.2]
          exact List.erase_sublist d c.docs
        | none =>
          right
          exact ⟨a, t, hat, (findOne_eq_none_iff a t c).1 hd,
            (followUser_create_path casts notifyFollow users now c ha hat hu hd).2.2⟩
      · left
        rw [followUser_keeps_of_not_found casts notifyFollow users now c
          (fun u hu => hfound ⟨u, hu⟩)]

theorem EdgeInvariant_of_sublist {c c' : FollowColl} (h : c'.docs.Sublist c.docs)
    (hc : c.EdgeInvariant) : c'.EdgeInvariant :=
  ⟨(h.map _).nodup hc.1, fun d hd => hc.2 d (h.subset hd)⟩

theorem EdgeInvariant_of_append {c c' : FollowColl} {a t : String} {i now : Nat}
    (h : c'.docs = c.docs ++ [⟨i, a, t, now⟩]) (hat : a ≠ t) (hno : ¬ c.hasEdge a t)
    (hc : c.EdgeInvariant) : c'.EdgeInvariant := by
  constructor
  · rw [h, List.map_append, List.nodup_append]
    refine ⟨hc.1, by simp, ?_⟩
    intro x hx hy
    simp only [List.map_cons, List.map_nil, List.mem_singleton] at hy
    subst hy
    obtain ⟨d, hd, e⟩ := List.mem_map.1 hx
    simp only [Prod.mk.injEq] at e
    exact hno ⟨d, hd, e.1, e.2⟩
  · intro d hd
    rw [h, List.mem_append, List.mem_singleton] at hd
    rcases hd with hd | rfl
    · exact hc.2 d hd
    · exact hat

theorem sat_following (u : String) (d : FollowDoc) :
    (FollowQuery.mk .unset (.eq u)).sat d = decide (d.following = u) := by
  simp [FollowQuery.sat, FieldCond.sat]

theorem sat_follower (u : String) (d : FollowDoc) :
    (FollowQuery.mk (.eq u) .unset).sat d = decide (d.follower = u) := by
  simp [FollowQuery.sat, FieldCond.sat]

theorem sortCreatedAtDesc_perm (l : List FollowDoc) : (sortCreatedAtDesc l).Perm l :=
  List.perm_insertionSort _ l

theorem sortCreatedAtDesc_sorted (l : List FollowDoc) :
    (sortCreatedAtDesc l).Sorted (fun d e => d.createdAt ≥ e.createdAt) := by
  haveI : IsTotal FollowDoc (fun d e => d.createdAt ≥ e.createdAt) :=
    ⟨fun d e => Nat.le_total e.createdAt d.createdAt⟩
  haveI : IsTrans FollowDoc (fun d e => d.createdAt ≥ e.createdAt) :=
    ⟨fun _ _ _ h₁ h₂ => Nat.le_trans h₂ h₁⟩
  exact List.sorted_insertionSort _ l

theorem populate_id {users : List UserDoc} {ref : String} {x : UserDoc}
    (h : populate users ref = some x) : x._id = ref := by
  simpa using List.find?_some h

/-! ## Claims -/

/-- C1: for every collection that satisfies the invariant of the data model
(at most one edge per ordered pair, no self edge), every present actor id `a`
and every target id `t ≠ a` of an existing user, two `followUser` calls in
sequence leave the answer of the lookup `checkFollowStatus` for follower `a`
and following `t` exactly as it was before the first call. -/
theorem followUser_twice_restores (casts : String → Bool)
    (notify₁ notify₂ : String → String → Except String Unit)
    (users : List UserDoc) (now₁ now₂ : Nat) (a t : String) (c : FollowColl) (u : UserDoc)
    (hinv : c.EdgeInvariant)
    (ha : a ≠ "") (hat : a ≠ t) (hu : User.findById casts t users = .ok (some u)) :
    checkFollowStatus ⟨t, .present (some a)⟩
        (followUser casts notify₂ users now₂ ⟨t, .present (some a)⟩
          (followUser casts notify₁ users now₁ ⟨t, .present (some a)⟩ c).follows).follows
      = checkFollowStatus ⟨t, .present (some a)⟩ c := by
  have hle := count_le_one_of_edgeInvariant hinv a t
  rw [checkFollowStatus_eq, checkFollowStatus_eq,
    count_followUser casts notify₂ users now₂ _ ha hat hu,
    count_followUser casts notify₁ users now₁ c ha hat hu]
  congr 2
  rw [decide_eq_decide]
  split <;> split <;> omega

/-- Witness of C1: one edge `a → t`, toggled twice, the second notification
throwing. -/
theorem followUser_twice_restores_witness :
    oneEdge.EdgeInvariant ∧ "a" ≠ "" ∧ "a" ≠ "t"
    ∧ User.findById exampleCasts "t" exampleUsers = .ok (some ⟨"t", "T", "", "t@x", "tt"⟩)
    ∧ checkFollowStatus ⟨"t", .present (some "a")⟩
        (followUser exampleCasts notifyThrows exampleUsers 12 ⟨"t", .present (some "a")⟩
          (followUser exampleCasts notifyOk exampleUsers 11 ⟨"t", .present (some "a")⟩
            oneEdge).follows).follows
      = checkFollowStatus ⟨"t", .present (some "a")⟩ oneEdge :=
  ⟨by decide, by decide, by decide, by decide,
    followUser_twice_restores exampleCasts notifyOk notifyThrows exampleUsers 11 12 "a" "t"
      oneEdge ⟨"t", "T", "", "t@x", "tt"⟩ (by decide) (by decide) (by decide) (by decide)⟩

/-- C2: for every collection that satisfies the invariant of the data model,
every present actor `a` and every existing target `t ≠ a`: if an edge `a → t`
exists, `followUser` deletes it and answers 200 with `following = false`, and
no edge `a → t` exists afterwards; otherwise it appends the edge `a → t` and
answers 201 with `following = true`, and an edge `a → t` exists afterwards. -/
theorem followUser_toggles (casts : String → Bool)
    (notifyFollow : String → String → Except String Unit)
    (users : List UserDoc) (now : Nat) (a t : String) (c : FollowColl) (u : UserDoc)
    (hinv : c.EdgeInvariant)
    (ha : a ≠ "") (hat : a ≠ t) (hu : User.findById casts t users = .ok (some u)) :
    (c.hasEdge a t →
      (followUser casts notifyFollow users now ⟨t, .present (some a)⟩ c).reply
          = .json 200 ⟨true, false, "Unfollowed user."⟩
      ∧ (∃ d ∈ c.docs, d.follower = a ∧ d.following = t
          ∧ (followUser casts notifyFollow users now ⟨t, .present (some a)⟩ c).follows.docs
              = c.docs.erase d)
      ∧ ¬ (followUser casts notifyFollow users now ⟨t, .present (some a)⟩ c).follows.hasEdge a t)
    ∧ (¬ c.hasEdge a t →
      (followUser casts notifyFollow users now ⟨t, .present (some a)⟩ c).reply
          = .json 201 ⟨true, true, "Successfully followed user."⟩
      ∧ (followUser casts notifyFollow users now ⟨t, .present (some a)⟩ c).follows.docs
          = c.docs ++ [⟨Follow.freshId c.docs, a, t, now⟩]
      ∧ (followUser casts notifyFollow users now ⟨t, .present (some a)⟩ c).follows.hasEdge a t) := by
  constructor
  · intro he
    have hs := (findOne_isSome_iff a t c).2 he
    obtain ⟨d, hd⟩ := Option.isSome_iff_exists.1 hs
    have hp := followUser_delete_path casts notifyFollow users now c ha hat hu hd
    have hsat := (sat_pair_iff a t d).1 (List.find?_some hd)
    refine ⟨hp.2.1, ⟨d, List.mem_of_find?_eq_some hd, hsat.1, hsat.2, hp.2.2⟩, ?_⟩
    have hle := count_le_one_of_edgeInvariant hinv a t
    have hpos := (hasEdge_iff_count_pos a t c).1 he
    rw [hasEdge_iff_count_pos, count_followUser casts notifyFollow users now c ha hat hu]
    split <;> omega
  · intro hno
    have key := followUser_create_path casts notifyFollow users now c ha hat hu
      ((findOne_eq_none_iff a t c).2 hno)
    refine ⟨key.2.1, key.2.2, ⟨Follow.freshId c.docs, a, t, now⟩, ?_, rfl, rfl⟩
    rw [key.2.2]
    simp

/-- Witness of C2: the edge `a → t` is toggled away. -/
theorem followUser_toggles_witness :
    oneEdge.EdgeInvariant ∧ "a" ≠ "" ∧ "a" ≠ "t"
    ∧ User.findById exampleCasts "t" exampleUsers = .ok (some ⟨"t", "T", "", "t@x", "tt"⟩)
    ∧ oneEdge.hasEdge "a" "t"
    ∧ ¬ (followUser exampleCasts notifyOk exampleUsers 11 ⟨"t", .present (some "a")⟩
          oneEdge).follows.hasEdge "a" "t" :=
  ⟨by decide, by decide, by decide, by decide, by decide,
    ((followUser_toggles exampleCasts notifyOk exampleUsers 11 "a" "t" oneEdge
      ⟨"t", "T", "", "t@x", "tt"⟩ (by decide) (by decide) (by decide) (by decide)).1
      (by decide)).2.2⟩

/-- C3: for every collection, user collection and present actor id `a`,
`followUser` with target id `a` answers through `next` with status 400 and
message 'You cannot follow yourself.', leaves the collection as it was, and
makes no call to `notifyFollow`. -/
theorem followUser_self_rejected (casts : String → Bool)
    (notifyFollow : String → String → Except String Unit)
    (users : List UserDoc) (now : Nat) (a : String) (c : FollowColl) (ha : a ≠ "") :
    followUser casts notifyFollow users now ⟨a, .present (some a)⟩ c
      = ⟨c, [], [], .next (handleError 400 "You cannot follow yourself.")⟩ := by
  simp [followUser, followUserTry, truthy_some ha]

/-- Witness of C3: the actor `a` has a user document and a self edge is
stored. -/
theorem followUser_self_rejected_witness :
    "a" ≠ "" ∧ selfEdge.hasEdge "a" "a"
    ∧ User.findById exampleCasts "a" exampleUsers = .ok (some ⟨"a", "A", "", "a@x", "aa"⟩)
    ∧ followUser exampleCasts notifyOk exampleUsers 11 ⟨"a", .present (some "a")⟩ selfEdge
      = ⟨selfEdge, [], [], .next (handleError 400 "You cannot follow yourself.")⟩ :=
  ⟨by decide, by decide, by decide,
    followUser_self_rejected exampleCasts notifyOk exampleUsers 11 "a" selfEdge (by decide)⟩

/-- C4 (as the code has it): for a present actor `a` and a target id `t ≠ a`
that the store can cast to an id and that is the `_id` of no user,
`followUser` answers through `next` with status 404, leaves the collection as
it was, and makes no call to `notifyFollow`. -/
theorem followUser_target_not_found (casts : String → Bool)
    (notifyFollow : String → String → Except String Unit)
    (users : List UserDoc) (now : Nat) (a t : String) (c : FollowColl)
    (ha : a ≠ "") (hat : a ≠ t) (hcast : casts t = true) (hu : ∀ u ∈ users, u._id ≠ t) :
    followUser casts notifyFollow users now ⟨t, .present (some a)⟩ c
      = ⟨c, [], [], .next (handleError 404 "User not found.")⟩ := by
  have hf : User.findById casts t users = .ok none := by
    simp only [User.findById, hcast, if_true]
    congr 1
    rw [List.find?_eq_none]
    intro x hx
    simpa using hu x hx
  simp [followUser, followUserTry, truthy_some ha, hat, hf]

/-- Witness of C4: a target in the 24 hexadecimal digits of an `ObjectId`, which
casts and has no user document. -/
theorem followUser_target_not_found_witness :
    "a" ≠ "" ∧ "a" ≠ "64b7f0c2a1d3e4f5a6b7c8d9"
    ∧ exampleCasts "64b7f0c2a1d3e4f5a6b7c8d9" = true
    ∧ (∀ u ∈ exampleUsers, u._id ≠ "64b7f0c2a1d3e4f5a6b7c8d9")
    ∧ followUser exampleCasts notifyOk exampleUsers 11
        ⟨"64b7f0c2a1d3e4f5a6b7c8d9", .present (some "a")⟩ oneEdge
      = ⟨oneEdge, [], [], .next (handleError 404 "User not found.")⟩ :=
  ⟨by decide, by decide, by decide, by decide,
    followUser_target_not_found exampleCasts notifyOk exampleUsers 11 "a"
      "64b7f0c2a1d3e4f5a6b7c8d9" oneEdge (by decide) (by decide) (by decide) (by decide)⟩

/-- Counterexample to C4 as stated: the target id `not-an-id` is the `_id` of
no user and the store cannot cast it, so `User.findById` throws and
`followUser` answers 500 with the message of the cast error, not 404.  The
actor id is one every store casts. -/
theorem followUser_target_uncastable_counterexample :
    "64b7f0c2a1d3e4f5a6b7c8d9" ≠ "" ∧ "64b7f0c2a1d3e4f5a6b7c8d9" ≠ "not-an-id"
    ∧ (∀ u ∈ exampleUsers, u._id ≠ "not-an-id")
    ∧ exampleCasts "not-an-id" = false
    ∧ followUser exampleCasts notifyOk exampleUsers 11
        ⟨"not-an-id", .present (some "64b7f0c2a1d3e4f5a6b7c8d9")⟩ oneEdge
      = ⟨oneEdge, [], [],
          .next (handleError 500 (castErrorMessage "not-an-id" "_id" "User"))⟩
    ∧ (handleError 500 (castErrorMessage "not-an-id" "_id" "User")).statusCode ≠ 404 :=
  ⟨by decide, by decide, by decide, by decide,
    followUser_cast_error exampleCasts notifyOk exampleUsers 11 oneEdge
      (by decide) (by decide) (by decide), by decide⟩

/-- C5 (as the code has it): when the request carries a `req.user` whose
`_id` is absent (undefined, or the empty string, which is as falsy),
`followUser` answers through `next` with status 401 and message
'Authentication required' for every target id, castable or not, every user
collection and every `Follow` collection, and leaves the collection as it
was. -/
theorem followUser_unauthorized (casts : String → Bool)
    (notifyFollow : String → String → Except String Unit)
    (users : List UserDoc) (now : Nat) (actor : Option String) (t : String) (c : FollowColl)
    (h : actor = none ∨ actor = some "") :
    followUser casts notifyFollow users now ⟨t, .present actor⟩ c
      = ⟨c, [], [], .next (handleError 401 "Authentication required")⟩ := by
  rcases h with rfl | rfl <;> simp [followUser, followUserTry, truthy]

/-- Witness of C5: actor and target are both the empty string, which names no
user, so the self-follow and the not-found conditions hold as well. -/
theorem followUser_unauthorized_witness :
    ((some "" : Option String) = none ∨ (some "" : Option String) = some "")
    ∧ (∀ u ∈ exampleUsers, u._id ≠ "")
    ∧ followUser exampleCasts notifyOk exampleUsers 11 ⟨"", .present (some "")⟩ oneEdge
      = ⟨oneEdge, [], [], .next (handleError 401 "Authentication required")⟩ :=
  ⟨Or.inr rfl, by decide,
    followUser_unauthorized exampleCasts notifyOk exampleUsers 11 (some "") "" oneEdge
      (Or.inr rfl)⟩

/-- Counterexample to C5 as stated: on a request that carries no `req.user`
at all, reading `req.user._id` throws and `followUser` answers 500 with the
message of that error, not 401. -/
theorem followUser_no_user_counterexample :
    followUser exampleCasts notifyOk exampleUsers 11 ⟨"t", .absent⟩ oneEdge
      = ⟨oneEdge, [], [], .next (handleError 500 typeErrorMessage)⟩
    ∧ (handleError 500 typeErrorMessage).statusCode ≠ 401 :=
  ⟨followUser_absent exampleCasts notifyOk exampleUsers 11 "t" oneEdge, by decide⟩

/-- C6: on the create path (present actor `a`, existing target `t ≠ a`, no
edge `a → t`), `notifyFollow` is called once, with `(a, t)`, and whatever it
returns or throws the edge `a → t` is created and the answer is 201 with
`success = true` and `following = true`. -/
theorem followUser_create_notifies (casts : String → Bool)
    (notifyFollow : String → String → Except String Unit)
    (users : List UserDoc) (now : Nat) (a t : String) (c : FollowColl) (u : UserDoc)
    (ha : a ≠ "") (hat : a ≠ t) (hu : User.findById casts t users = .ok (some u))
    (hno : ¬ c.hasEdge a t) :
    (followUser casts notifyFollow users now ⟨t, .present (some a)⟩ c).notified = [(a, t)]
    ∧ (followUser casts notifyFollow users now ⟨t, .present (some a)⟩ c).reply
        = .json 201 ⟨true, true, "Successfully followed user."⟩
    ∧ (followUser casts notifyFollow users now ⟨t, .present (some a)⟩ c).follows.docs
        = c.docs ++ [⟨Follow.freshId c.docs, a, t, now⟩]
    ∧ (followUser casts notifyFollow users now ⟨t, .present (some a)⟩ c).follows.hasEdge a t := by
  have key := followUser_create_path casts notifyFollow users now c ha hat hu
    ((findOne_eq_none_iff a t c).2 hno)
  refine ⟨key.1, key.2.1, key.2.2, ?_⟩
  refine ⟨⟨Follow.freshId c.docs, a, t, now⟩, ?_, rfl, rfl⟩
  rw [key.2.2]
  simp

/-- Witness of C6: `t` follows `a` while the notification collaborator
throws. -/
theorem followUser_create_notifies_witness :
    "t" ≠ "" ∧ "t" ≠ "a"
    ∧ User.findById exampleCasts "a" exampleUsers = .ok (some ⟨"a", "A", "", "a@x", "aa"⟩)
    ∧ ¬ oneEdge.hasEdge "t" "a"
    ∧ notifyThrows "t" "a" = .error "down"
    ∧ (followUser exampleCasts notifyThrows exampleUsers 11 ⟨"a", .present (some "t")⟩ oneEdge).notified = [("t", "a")]
    ∧ (followUser exampleCasts notifyThrows exampleUsers 11 ⟨"a", .present (some "t")⟩ oneEdge).reply
        = .json 201 ⟨true, true, "Successfully followed user."⟩ :=
  ⟨by decide, by decide, by decide, by decide, rfl,
    (followUser_create_notifies exampleCasts notifyThrows exampleUsers 11 "t" "a" oneEdge
      ⟨"a", "A", "", "a@x", "aa"⟩ (by decide) (by decide) (by decide) (by decide)).1,
    (followUser_create_notifies exampleCasts notifyThrows exampleUsers 11 "t" "a" oneEdge
      ⟨"a", "A", "", "a@x", "aa"⟩ (by decide) (by decide) (by decide) (by decide)).2.1⟩

/-- C7 (as the code has it): for every collection, actor `a` and target `t`
that the store can cast to an id: when an edge `a → t` is present
`unfollowUser` deletes one such edge and answers 200 with `success = true`;
when none is present it answers through `next` with status 404 and message
'You are not following this user.' and leaves the collection as it was.  For
every target, castable or not, it adds no document. -/
theorem unfollowUser_strict (casts : String → Bool) (a t : String) (c : FollowColl) :
    (casts t = true →
      (c.hasEdge a t →
        (unfollowUser casts ⟨t, .present (some a)⟩ c).reply
            = .json 200 ⟨true, "Successfully unfollowed user."⟩
        ∧ ∃ d ∈ c.docs, d.follower = a ∧ d.following = t
            ∧ (unfollowUser casts ⟨t, .present (some a)⟩ c).follows.docs = c.docs.erase d)
      ∧ (¬ c.hasEdge a t →
        (unfollowUser casts ⟨t, .present (some a)⟩ c).reply
            = .next (handleError 404 "You are not following this user.")
        ∧ (unfollowUser casts ⟨t, .present (some a)⟩ c).follows = c))
    ∧ (unfollowUser casts ⟨t, .present (some a)⟩ c).follows.docs.Sublist c.docs := by
  refine ⟨fun ht => ?_, unfollowUser_sublist casts _ c⟩
  cases hd : Follow.findOne ⟨.eq a, .eq t⟩ c with
  | none =>
    have hno := (findOne_eq_none_iff a t c).1 hd
    have hout := unfollowUser_none casts (some a) c ht hd
    refine ⟨fun h => absurd h hno, fun _ => ?_⟩
    rw [hout]
    exact ⟨rfl, rfl⟩
  | some d =>
    have hsat := (sat_pair_iff a t d).1 (List.find?_some hd)
    have hmem : d ∈ c.docs := List.mem_of_find?_eq_some hd
    have hout := unfollowUser_some casts (some a) c ht hd
    exact ⟨fun _ => ⟨hout.1, d, hmem, hsat.1, hsat.2, hout.2⟩,
      fun hno => absurd ⟨d, hmem, hsat⟩ hno⟩

/-- Witness of C7: the strict unfollow with the edge present, and with none. -/
theorem unfollowUser_strict_witness :
    exampleCasts "t" = true ∧ oneEdge.hasEdge "a" "t" ∧ ¬ oneEdge.hasEdge "b" "t"
    ∧ (unfollowUser exampleCasts ⟨"t", .present (some "a")⟩ oneEdge).reply
        = .json 200 ⟨true, "Successfully unfollowed user."⟩
    ∧ (unfollowUser exampleCasts ⟨"t", .present (some "b")⟩ oneEdge).follows = oneEdge :=
  ⟨by decide, by decide, by decide,
    (((unfollowUser_strict exampleCasts "a" "t" oneEdge).1 (by decide)).1 (by decide)).1,
    (((unfollowUser_strict exampleCasts "b" "t" oneEdge).1 (by decide)).2 (by decide)).2⟩

/-- Counterexample to C7 as stated: no edge from the actor to `not-an-id` is
stored, the store cannot cast the target, so `Follow.findOneAndDelete` throws
and `unfollowUser` answers 500 with the message of the cast error, not 404.
The actor id is one every store casts. -/
theorem unfollowUser_uncastable_counterexample :
    ¬ oneEdge.hasEdge "64b7f0c2a1d3e4f5a6b7c8d9" "not-an-id"
    ∧ exampleCasts "not-an-id" = false
    ∧ unfollowUser exampleCasts ⟨"not-an-id", .present (some "64b7f0c2a1d3e4f5a6b7c8d9")⟩
        oneEdge
      = ⟨oneEdge,
          .next (handleError 500 (castErrorMessage "not-an-id" "following" "Follow"))⟩
    ∧ (handleError 500 (castErrorMessage "not-an-id" "following" "Follow")).statusCode
        ≠ 404 :=
  ⟨by decide, by decide,
    unfollowUser_cast_error exampleCasts (some "64b7f0c2a1d3e4f5a6b7c8d9") oneEdge (by decide),
    by decide⟩

/-- C8: every collection reachable from the empty one by sequential
`followUser` and `unfollowUser` calls, with any actors, targets, user
collections, times and notification results, holds at most one edge per
ordered (follower, following) pair and no edge whose follower equals its
following. -/
theorem reachable_edgeInvariant (c : FollowColl) (h : Reachable c) : c.EdgeInvariant := by
  induction h with
  | empty => exact ⟨List.nodup_nil, fun d hd => by cases hd⟩
  | follow casts notifyFollow users now req _ ih =>
    rcases followUser_docs_cases casts notifyFollow users now req _ with hs | ⟨a, t, hat, hno, hs⟩
    · exact EdgeInvariant_of_sublist hs ih
    · exact EdgeInvariant_of_append hs hat hno ih
  | unfollow casts req _ ih =>
    exact EdgeInvariant_of_sublist (unfollowUser_sublist casts req _) ih

/-- Witness of C8: the collection after one follow from the empty one. -/
theorem reachable_edgeInvariant_witness :
    Reachable (followUser exampleCasts notifyOk exampleUsers 5 ⟨"t", .present (some "a")⟩ FollowColl.empty).follows
    ∧ (followUser exampleCasts notifyOk exampleUsers 5 ⟨"t", .present (some "a")⟩ FollowColl.empty).follows.EdgeInvariant :=
  ⟨Reachable.follow exampleCasts notifyOk exampleUsers 5 ⟨"t", .present (some "a")⟩ Reachable.empty,
    reachable_edgeInvariant _
      (Reachable.follow exampleCasts notifyOk exampleUsers 5 ⟨"t", .present (some "a")⟩ Reachable.empty)⟩

/-- C9: for every collection and user id `u`, `getFollowers`, `getFollowing`
and `getFollowStats` all answer 200, the `count` of `getFollowers` is the
`followersCount` of `getFollowStats`, and the `count` of `getFollowing` is its
`followingCount`. -/
theorem counts_agree_with_stats (users : List UserDoc) (user : ReqUser) (u : String)
    (c : FollowColl) :
    ∃ (fs : FollowersBody) (fg : FollowingBody) (st : StatsBody),
      getFollowers users ⟨u, user⟩ c = .json 200 fs
      ∧ getFollowing users ⟨u, user⟩ c = .json 200 fg
      ∧ getFollowStats ⟨u, user⟩ c = .json 200 st
      ∧ fs.count = st.followersCount ∧ fg.count = st.followingCount := by
  refine ⟨_, _, _, rfl, rfl, rfl, ?_, ?_⟩ <;>
    simp [sortCreatedAtDesc, Follow.find, Follow.countDocuments, List.length_insertionSort,
      List.countP_eq_length_filter]

/-- C10: for every collection and user id `u`, `getFollowers` answers with one
entry per edge whose `following` is `u`, the populated `follower` of that
edge, and `getFollowing` with one entry per edge whose `follower` is `u`, the
populated `following` of that edge; in both the edges are taken newest first,
their `createdAt` never increasing along the sequence.  A populated entry that
is not null is the user document the reference names. -/
theorem lists_newest_first (users : List UserDoc) (user : ReqUser) (u : String)
    (c : FollowColl) :
    (∃ es : List FollowDoc,
      es.Perm (c.docs.filter (fun d => decide (d.following = u)))
      ∧ es.Sorted (fun d e => d.createdAt ≥ e.createdAt)
      ∧ getFollowers users ⟨u, user⟩ c
          = .json 200 ⟨true, es.map (fun d => populate users d.follower), es.length⟩)
    ∧ (∃ es : List FollowDoc,
      es.Perm (c.docs.filter (fun d => decide (d.follower = u)))
      ∧ es.Sorted (fun d e => d.createdAt ≥ e.createdAt)
      ∧ getFollowing users ⟨u, user⟩ c
          = .json 200 ⟨true, es.map (fun d => populate users d.following), es.length⟩)
    ∧ ∀ (ref : String) (x : UserDoc), populate users ref = some x → x._id = ref := by
  refine ⟨⟨sortCreatedAtDesc (Follow.find ⟨.unset, .eq u⟩ c), ?_, sortCreatedAtDesc_sorted _, rfl⟩,
    ⟨sortCreatedAtDesc (Follow.find ⟨.eq u, .unset⟩ c), ?_, sortCreatedAtDesc_sorted _, rfl⟩,
    fun _ _ h => populate_id h⟩
  · have h : (FollowQuery.mk .unset (.eq u)).sat = fun d => decide (d.following = u) :=
      funext (sat_following u)
    rw [Follow.find, h]
    exact sortCreatedAtDesc_perm _
  · have h : (FollowQuery.mk (.eq u) .unset).sat = fun d => decide (d.follower = u) :=
      funext (sat_follower u)
    rw [Follow.find, h]
    exact sortCreatedAtDesc_perm _

/-- Witness of C10: the followers of `t` in a collection of four edges, newest
first; `b` and `z` have no user document and are populated as null. -/
theorem lists_newest_first_witness :
    getFollowers exampleUsers ⟨"t", .present none⟩ fourEdges
      = .json 200 ⟨true, [none, some ⟨"a", "A", "", "a@x", "aa"⟩, none], 3⟩
    ∧ populate exampleUsers "a" = some ⟨"a", "A", "", "a@x", "aa"⟩
    ∧ (⟨"a", "A", "", "a@x", "aa"⟩ : UserDoc)._id = "a" :=
  ⟨by decide, by decide,
    (lists_newest_first exampleUsers (.present none) "t" fourEdges).2.2 "a" ⟨"a", "A", "", "a@x", "aa"⟩
      (by decide)⟩

/-! ## The mailer: auxiliary facts -/

theorem normalizeEntry_str (s : String) : normalizeEntry (.str s) = .ok (emailOnly s) := by
  simp [normalizeEntry, JsVal.typeof, emailOnly]

theorem normalizeEntry_record (email name : JsVal) (h : email.truthy = true) :
    normalizeEntry (recipientRecord email name) = .ok (recipientRecord email name) := by
  have ho : (JsVal.obj [("email", email), ("name", name)]).truthy = true := rfl
  simp [normalizeEntry, recipientRecord, JsVal.typeof, JsVal.get, List.lookup, h, ho]

theorem get_of_hasKey_false {x : JsVal} {key : String} (h : x.hasKey key = false) :
    x.get key = .undefined := by
  cases x with
  | obj fields =>
    simp only [JsVal.hasKey] at h
    simp only [JsVal.get]
    cases hl : List.lookup key fields with
    | none => rfl
    | some v => rw [hl] at h; cases h
  | _ => rfl

theorem normalizeEntry_invalid {x : JsVal} (hs : x.typeof ≠ "string")
    (he : x.hasKey "email" = false) :
    normalizeEntry x = .error (newError "Invalid recipient format supplied to mailer") := by
  simp [normalizeEntry, hs, get_of_hasKey_false he, JsVal.truthy]

theorem normalizeEntry_ok_or_invalid (x : JsVal) :
    (∃ r, normalizeEntry x = .ok r)
    ∨ normalizeEntry x = .error (newError "Invalid recipient format supplied to mailer") := by
  unfold normalizeEntry
  split
  · exact Or.inl ⟨_, rfl⟩
  · split
    · exact Or.inl ⟨_, rfl⟩
    · exact Or.inr rfl

theorem mapThrowing_map_ok {α β γ ε : Type} (callback : β → Except ε γ) (f : α → β) (g : α → γ)
    (xs : List α) (h : ∀ x ∈ xs, callback (f x) = .ok (g x)) :
    mapThrowing callback (xs.map f) = .ok (xs.map g) := by
  induction xs with
  | nil => rfl
  | cons x xs ih =>
    have hx := h x (List.mem_cons_self x xs)
    have hxs := ih (fun y hy => h y (List.mem_cons_of_mem x hy))
    simp only [List.map_cons, mapThrowing, hx, hxs]

theorem mapThrowing_invalid (pre post : List JsVal) {x : JsVal}
    (hx : normalizeEntry x = .error (newError "Invalid recipient format supplied to mailer")) :
    mapThrowing normalizeEntry (pre ++ x :: post)
      = .error (newError "Invalid recipient format supplied to mailer") := by
  induction pre with
  | nil => simp only [List.nil_append, mapThrowing, hx]
  | cons p pre ih =>
    rw [List.cons_append]
    rcases normalizeEntry_ok_or_invalid p with ⟨r, hr⟩ | hr
    · simp only [mapThrowing, hr, ih]
    · simp only [mapThrowing, hr]

theorem normalizeRecipients_arr (items : List JsVal) :
    normalizeRecipients (.arr items) = mapThrowing normalizeEntry items := by
  simp [normalizeRecipients, JsVal.truthy]

/-! ## The mailer: claims -/

/-- C11: `normalizeRecipients` maps a single (non-empty) email string `s` to
the one-element sequence `[{ email: s }]`, and a sequence of strings
`[s1, ..., sn]` to `[{ email: s1 }, ..., { email: sn }]`, of the same length
and in the same order, no entry carrying a `name`. -/
theorem normalizeRecipients_strings (s : String) (ss : List String) :
    (s ≠ "" → normalizeRecipients (.str s) = .ok [emailOnly s])
    ∧ normalizeRecipients (.arr (ss.map JsVal.str)) = .ok (ss.map emailOnly)
    ∧ (ss.map emailOnly).length = ss.length
    ∧ ∀ r ∈ ss.map emailOnly, r.hasKey "name" = false := by
  refine ⟨fun hs => ?_, ?_, List.length_map _ _, ?_⟩
  · simp [normalizeRecipients, JsVal.truthy, hs, mapThrowing, normalizeEntry_str]
  · rw [normalizeRecipients_arr]
    exact mapThrowing_map_ok _ _ _ _ (fun x _ => normalizeEntry_str x)
  · intro r hr
    obtain ⟨x, _, rfl⟩ := List.mem_map.1 hr
    simp [emailOnly, JsVal.hasKey, List.lookup]

/-- Witness of C11: the inputs of the tests. -/
theorem normalizeRecipients_strings_witness :
    "test@example.com" ≠ ""
    ∧ normalizeRecipients (.str "test@example.com") = .ok [emailOnly "test@example.com"]
    ∧ normalizeRecipients (.arr [.str "user1@test.com", .str "user2@test.com"])
        = .ok [emailOnly "user1@test.com", emailOnly "user2@test.com"] :=
  ⟨by decide,
    (normalizeRecipients_strings "test@example.com" []).1 (by decide),
    (normalizeRecipients_strings "" ["user1@test.com", "user2@test.com"]).2.1⟩

/-- C12 (as the code has it): `normalizeRecipients` returns a sequence of
`{ email, name }` records whose emails are all truthy as it is, same records
in the same order, and a single such record `r` as `[r]`; the name may be any
value.  A record `{ email: s }` with a non-empty string `s` and no `name` key
is returned with an explicit `name: undefined`. -/
theorem normalizeRecipients_records (rs : List (JsVal × JsVal)) (email name : JsVal)
    (s : String) :
    ((∀ p ∈ rs, p.1.truthy = true) →
      normalizeRecipients (.arr (rs.map fun p => recipientRecord p.1 p.2))
        = .ok (rs.map fun p => recipientRecord p.1 p.2))
    ∧ (email.truthy = true →
      normalizeRecipients (recipientRecord email name) = .ok [recipientRecord email name])
    ∧ (s ≠ "" →
      normalizeRecipients (.arr [emailOnly s]) = .ok [recipientRecord (.str s) .undefined]) := by
  refine ⟨?_, ?_, ?_⟩
  · intro h
    rw [normalizeRecipients_arr]
    exact mapThrowing_map_ok _ _ _ _ (fun p hp => normalizeEntry_record p.1 p.2 (h p hp))
  · intro h
    have := normalizeEntry_record email name h
    simp only [normalizeRecipients, recipientRecord, JsVal.truthy, Bool.not_true,
      Bool.false_eq_true, if_false, mapThrowing]
    simp only [recipientRecord] at this
    rw [this]
  · intro hs
    have ht : (JsVal.str s).truthy = true := by simp [JsVal.truthy, hs]
    have ho : (JsVal.obj [("email", JsVal.str s)]).truthy = true := rfl
    have he : normalizeEntry (emailOnly s) = .ok (recipientRecord (.str s) .undefined) := by
      simp [normalizeEntry, emailOnly, recipientRecord, JsVal.typeof, JsVal.get, List.lookup,
        ht, ho]
    rw [normalizeRecipients_arr]
    simp only [mapThrowing, he]

/-- Witness of C12: the inputs of the tests. -/
theorem normalizeRecipients_records_witness :
    (∀ p ∈ [(JsVal.str "user1@test.com", JsVal.str "User One"),
        (JsVal.str "user2@test.com", JsVal.str "User Two")], p.1.truthy = true)
    ∧ normalizeRecipients (.arr [recipientRecord (.str "user1@test.com") (.str "User One"),
          recipientRecord (.str "user2@test.com") (.str "User Two")])
        = .ok [recipientRecord (.str "user1@test.com") (.str "User One"),
          recipientRecord (.str "user2@test.com") (.str "User Two")]
    ∧ normalizeRecipients (recipientRecord (.str "named@test.com") (.str "Test User"))
        = .ok [recipientRecord (.str "named@test.com") (.str "Test User")] :=
  ⟨by simp [JsVal.truthy],
    (normalizeRecipients_records [(.str "user1@test.com", .str "User One"),
      (.str "user2@test.com", .str "User Two")] .null .null "").1 (by simp [JsVal.truthy]),
    (normalizeRecipients_records [] (.str "named@test.com") (.str "Test User") "").2.1
      (by decide)⟩

/-- Counterexample to C12 as stated: the one-element sequence holding the
`{ email, name }` record with the empty email and the name 'A' is not
returned, the call throws; and the record `{ email: 'a@x.com' }`, which is
what `normalizeRecipients` makes of the string, comes back as another value,
with an explicit `name: undefined`. -/
theorem normalizeRecipients_records_counterexample :
    normalizeRecipients (.arr [recipientRecord (.str "") (.str "A")])
        = .error (newError "Invalid recipient format supplied to mailer")
    ∧ normalizeRecipients (.str "a@x.com") = .ok [emailOnly "a@x.com"]
    ∧ normalizeRecipients (.arr [emailOnly "a@x.com"])
        = .ok [recipientRecord (.str "a@x.com") .undefined]
    ∧ recipientRecord (.str "a@x.com") .undefined ≠ emailOnly "a@x.com" := by
  refine ⟨rfl, rfl, rfl, ?_⟩
  simp [recipientRecord, emailOnly]

/-- C13: `normalizeRecipients` throws on `null` and on `undefined`, and on
every sequence holding, at any position, an element that is neither a string
nor an object with an `email` key; what it throws is an error, never a part of
the result. -/
theorem normalizeRecipients_rejects (pre post : List JsVal) (x : JsVal) :
    normalizeRecipients .null = .error (newError "No recipient specified for email delivery")
    ∧ normalizeRecipients .undefined
        = .error (newError "No recipient specified for email delivery")
    ∧ (x.typeof ≠ "string" → x.hasKey "email" = false →
        normalizeRecipients (.arr (pre ++ x :: post))
          = .error (newError "Invalid recipient format supplied to mailer")) := by
  refine ⟨rfl, rfl, fun hs he => ?_⟩
  rw [normalizeRecipients_arr]
  exact mapThrowing_invalid pre post (normalizeEntry_invalid hs he)

/-- Witness of C13: a number between two valid entries, and an object that
has a name only. -/
theorem normalizeRecipients_rejects_witness :
    (JsVal.num 5).typeof ≠ "string" ∧ (JsVal.num 5).hasKey "email" = false
    ∧ normalizeRecipients (.arr ([.str "a@x.com"] ++ .num 5 :: [.str "b@x.com"]))
        = .error (newError "Invalid recipient format supplied to mailer")
    ∧ normalizeRecipients (.arr ([] ++ .obj [("name", .str "A")] :: []))
        = .error (newError "Invalid recipient format supplied to mailer") :=
  ⟨by decide, rfl,
    (normalizeRecipients_rejects [.str "a@x.com"] [.str "b@x.com"] (.num 5)).2.2
      (by decide) rfl,
    (normalizeRecipients_rejects [] [] (.obj [("name", .str "A")])).2.2 (by decide) rfl⟩

theorem getSubstitution_of_no_dollar (matched before after : List Char) :
    ∀ replacement : List Char, '$' ∉ replacement →
      getSubstitution matched before after replacement = replacement
  | [], _ => rfl
  | [_], _ => rfl
  | c :: d :: rest, h => by
    have hc : c ≠ '$' := fun e => h (e ▸ List.mem_cons_self c _)
    have ht : '$' ∉ d :: rest := fun m => h (List.mem_cons_of_mem c m)
    rw [getSubstitution, if_neg hc, getSubstitution_of_no_dollar matched before after _ ht]

theorem splitFirst_isSome_of_infix (pattern : List Char) :
    ∀ text : List Char, pattern <:+: text → ∃ before after,
      splitFirst pattern text = some (before, after)
  | [], h => by
    have hp : pattern = [] := List.eq_nil_of_infix_nil h
    exact ⟨[], [], by simp [splitFirst, hp]⟩
  | c :: cs, h => by
    by_cases hpre : pattern.isPrefixOf (c :: cs) = true
    · exact ⟨[], _, by rw [splitFirst, if_pos hpre]⟩
    · have hin : pattern <:+: cs := by
        rcases List.infix_cons_iff.1 h with hp | hi
        · exact absurd (List.isPrefixOf_iff_prefix.2 hp) hpre
        · exact hi
      obtain ⟨b, a, hs⟩ := splitFirst_isSome_of_infix pattern cs hin
      exact ⟨c :: b, a, by rw [splitFirst, if_neg hpre, hs]⟩

/-- With a code free of `$`, the text `jsReplace` returns for a template that
holds the pattern holds the code. -/
theorem jsReplace_contains_of_no_dollar (template pattern code : String)
    (hd : '$' ∉ code.data) (hp : pattern.data <:+: template.data) :
    code.data <:+: (jsReplace template pattern code).data := by
  obtain ⟨b, a, hs⟩ := splitFirst_isSome_of_infix pattern.data template.data hp
  simp only [jsReplace, hs, getSubstitution_of_no_dollar _ _ _ _ hd]
  exact ⟨b, a, rfl⟩

/-- C14 (failing input): with the code `$&`, the body `sendOtpEmail` and
`sendPasswordResetEmail` hand to the vendor for the template
`<p>{verificationCode}</p>` is the template itself, placeholder included, and
does not hold the code. -/
theorem sendOtpEmail_dollar_code :
    "{verificationCode}".data <:+: "<p>{verificationCode}</p>".data
    ∧ (sendOtpEmail exampleMailer sendResolves "<p>{verificationCode}</p>"
        (.str "test@example.com") "$&").bodies = ["<p>{verificationCode}</p>"]
    ∧ (sendPasswordResetEmail exampleMailer sendResolves "<p>{verificationCode}</p>"
        (.str "test@example.com") "$&").bodies = ["<p>{verificationCode}</p>"]
    ∧ ¬ "$&".data <:+: "<p>{verificationCode}</p>".data := by
  decide

theorem loadMailer_unconfigured {env : ProcessEnv}
    (h : env.BREVO_API_KEY = none ∨ env.BREVO_API_KEY = some "") :
    (loadMailer env).brevoClient = none := by
  rcases h with h | h <;> simp [loadMailer, h, truthy]

theorem loadMailer_configured {env : ProcessEnv} {key : String}
    (h : env.BREVO_API_KEY = some key) (hk : key ≠ "") :
    ∃ client, (loadMailer env).brevoClient = some client := by
  simp [loadMailer, h, truthy, hk]

theorem deliverEmail_unconfigured {mailer : MailerModule} (h : mailer.brevoClient = none)
    (sendTransacEmail : SendSmtpEmail → Except JsError JsVal) (to_ : JsVal)
    (subject html : String) :
    deliverEmail mailer sendTransacEmail to_ subject html
      = ⟨[], [[.str "Email service not configured: BREVO_API_KEY missing"]],
          .error (newError "Email service not configured")⟩ := by
  simp only [deliverEmail, h]

theorem deliverEmail_configured {mailer : MailerModule} {client : BrevoClient}
    (h : mailer.brevoClient = some client)
    (sendTransacEmail : SendSmtpEmail → Except JsError JsVal) {to_ : JsVal}
    {recipients : List JsVal} (hn : normalizeRecipients to_ = .ok recipients)
    (subject html : String) :
    (deliverEmail mailer sendTransacEmail to_ subject html).sent
        = [⟨subject, html, ⟨mailer.fromAddress, mailer.senderName⟩, recipients⟩]
    ∧ (deliverEmail mailer sendTransacEmail to_ subject html).result
        = sendTransacEmail ⟨subject, html, ⟨mailer.fromAddress, mailer.senderName⟩, recipients⟩ := by
  simp only [deliverEmail, h, hn]
  cases sendTransacEmail ⟨subject, html, ⟨mailer.fromAddress, mailer.senderName⟩, recipients⟩ <;>
    exact ⟨rfl, rfl⟩

/-- C15: when `BREVO_API_KEY` was unset (or empty) at module load, every call
of `deliverEmail`, `sendOtpEmail` and `sendPasswordResetEmail`, whatever its
arguments, throws the error 'Email service not configured' and hands no
message to the vendor primitive. -/
theorem unconfigured_mailer_throws (env : ProcessEnv)
    (sendTransacEmail : SendSmtpEmail → Except JsError JsVal)
    (to_ : JsVal) (subject html template code : String)
    (h : env.BREVO_API_KEY = none ∨ env.BREVO_API_KEY = some "") :
    ((deliverEmail (loadMailer env) sendTransacEmail to_ subject html).result
        = .error (newError "Email service not configured")
      ∧ (deliverEmail (loadMailer env) sendTransacEmail to_ subject html).sent = [])
    ∧ ((sendOtpEmail (loadMailer env) sendTransacEmail template to_ code).result
        = .error (newError "Email service not configured")
      ∧ (sendOtpEmail (loadMailer env) sendTransacEmail template to_ code).sent = [])
    ∧ ((sendPasswordResetEmail (loadMailer env) sendTransacEmail template to_ code).result
        = .error (newError "Email service not configured")
      ∧ (sendPasswordResetEmail (loadMailer env) sendTransacEmail template to_ code).sent = []) := by
  have hc := loadMailer_unconfigured h
  simp only [sendOtpEmail, sendPasswordResetEmail, deliverEmail_unconfigured hc, and_self]

/-- Witness of C15: no API key, and a recipient `normalizeRecipients` rejects. -/
theorem unconfigured_mailer_throws_witness :
    ((none : Option String) = none ∨ (none : Option String) = some "")
    ∧ normalizeRecipients (.num 5)
        = .error (newError "Invalid recipient format supplied to mailer")
    ∧ (sendOtpEmail (loadMailer ⟨some "test@shabdsetu.app", none, none, none⟩) sendResolves
          "<p>{verificationCode}</p>" (.num 5) "123456").result
        = .error (newError "Email service not configured")
    ∧ (sendOtpEmail (loadMailer ⟨some "test@shabdsetu.app", none, none, none⟩) sendResolves
          "<p>{verificationCode}</p>" (.num 5) "123456").sent = [] :=
  ⟨Or.inl rfl, rfl,
    (unconfigured_mailer_throws ⟨some "test@shabdsetu.app", none, none, none⟩ sendResolves
      (.num 5) "" "" "<p>{verificationCode}</p>" "123456" (Or.inl rfl)).2.1.1,
    (unconfigured_mailer_throws ⟨some "test@shabdsetu.app", none, none, none⟩ sendResolves
      (.num 5) "" "" "<p>{verificationCode}</p>" "123456" (Or.inl rfl)).2.1.2⟩

/-- C16: with a client configured and recipients that normalize, when the
vendor primitive rejects the message with an error `e`, `deliverEmail` throws
that same `e`, and so do `sendOtpEmail` and `sendPasswordResetEmail`, whatever
`e` carries as response body. -/
theorem vendor_error_rethrown (mailer : MailerModule) (client : BrevoClient)
    (sendTransacEmail : SendSmtpEmail → Except JsError JsVal)
    (to_ : JsVal) (recipients : List JsVal) (e : JsError)
    (hc : mailer.brevoClient = some client)
    (hn : normalizeRecipients to_ = .ok recipients) :
    (∀ subject html : String,
      sendTransacEmail ⟨subject, html, ⟨mailer.fromAddress, mailer.senderName⟩, recipients⟩
          = .error e →
        (deliverEmail mailer sendTransacEmail to_ subject html).result = .error e)
    ∧ (∀ template code : String,
      sendTransacEmail ⟨"ShabdSetu - Email verification code",
          jsReplace template "{verificationCode}" code,
          ⟨mailer.fromAddress, mailer.senderName⟩, recipients⟩ = .error e →
        (sendOtpEmail mailer sendTransacEmail template to_ code).result = .error e)
    ∧ (∀ template code : String,
      sendTransacEmail ⟨"ShabdSetu - Password reset code",
          jsReplace template "{verificationCode}" code,
          ⟨mailer.fromAddress, mailer.senderName⟩, recipients⟩ = .error e →
        (sendPasswordResetEmail mailer sendTransacEmail template to_ code).result = .error e) := by
  refine ⟨fun subject html he => ?_, fun template code he => ?_, fun template code he => ?_⟩
  · rw [(deliverEmail_configured hc sendTransacEmail hn subject html).2, he]
  · rw [sendOtpEmail, (deliverEmail_configured hc sendTransacEmail hn _ _).2, he]
  · rw [sendPasswordResetEmail, (deliverEmail_configured hc sendTransacEmail hn _ _).2, he]

/-- Witness of C16: the vendor rejects with an error that carries a response
body. -/
theorem vendor_error_rethrown_witness :
    exampleMailer.brevoClient = some ⟨"test-api-key", none⟩
    ∧ normalizeRecipients (.str "test@test.com") = .ok [emailOnly "test@test.com"]
    ∧ (sendOtpEmail exampleMailer sendRejects "<p>{verificationCode}</p>"
          (.str "test@test.com") "123456").result
        = .error ⟨"API Error", .obj [("message", .str "Invalid API key")]⟩ :=
  ⟨rfl, rfl,
    (vendor_error_rethrown exampleMailer ⟨"test-api-key", none⟩ sendRejects
      (.str "test@test.com") [emailOnly "test@test.com"]
      ⟨"API Error", .obj [("message", .str "Invalid API key")]⟩ rfl rfl).2.1
      "<p>{verificationCode}</p>" "123456" rfl⟩

/-- C17: with `BREVO_API_KEY` set at module load and recipients that
normalize, `deliverEmail` hands exactly one message to the vendor primitive:
its subject and `htmlContent` are the ones given, its sender is the
configured address and name, 'no-reply@shabdsetu.app' and 'ShabdSetu' standing
in for an unset (or empty) one, and its `to` is `normalizeRecipients(to)`; what
`deliverEmail` returns is what the vendor primitive returns for that message. -/
theorem deliverEmail_sends_one_message (env : ProcessEnv)
    (sendTransacEmail : SendSmtpEmail → Except JsError JsVal)
    (to_ : JsVal) (recipients : List JsVal) (subject html key : String)
    (hk : env.BREVO_API_KEY = some key) (hkey : key ≠ "")
    (hn : normalizeRecipients to_ = .ok recipients) :
    (deliverEmail (loadMailer env) sendTransacEmail to_ subject html).sent
        = [⟨subject, html,
            ⟨orFallback env.BREVO_SENDER_EMAIL "no-reply@shabdsetu.app",
              orFallback env.BREVO_SENDER_NAME "ShabdSetu"⟩, recipients⟩]
    ∧ (deliverEmail (loadMailer env) sendTransacEmail to_ subject html).result
        = sendTransacEmail ⟨subject, html,
            ⟨orFallback env.BREVO_SENDER_EMAIL "no-reply@shabdsetu.app",
              orFallback env.BREVO_SENDER_NAME "ShabdSetu"⟩, recipients⟩
    ∧ (∀ fallback : String, orFallback none fallback = fallback)
    ∧ (∀ fallback : String, orFallback (some "") fallback = fallback)
    ∧ (∀ value fallback : String, value ≠ "" → orFallback (some value) fallback = value) := by
  obtain ⟨client, hc⟩ := loadMailer_configured hk hkey
  have h := deliverEmail_configured hc sendTransacEmail hn subject html
  refine ⟨h.1, h.2, fun _ => rfl, fun _ => ?_, fun value _ hv => ?_⟩
  · simp [orFallback, truthy]
  · simp [orFallback, truthy, hv]

/-- Witness of C17: the sender address is configured, the sender name is not. -/
theorem deliverEmail_sends_one_message_witness :
    (some "test-api-key" : Option String) = some "test-api-key" ∧ "test-api-key" ≠ ""
    ∧ normalizeRecipients (.str "test@example.com") = .ok [emailOnly "test@example.com"]
    ∧ (deliverEmail exampleMailer sendResolves (.str "test@example.com") "Hello" "<p>Hi</p>").sent
        = [⟨"Hello", "<p>Hi</p>", ⟨"test@shabdsetu.app", "ShabdSetu"⟩,
            [emailOnly "test@example.com"]⟩]
    ∧ (deliverEmail exampleMailer sendResolves (.str "test@example.com") "Hello" "<p>Hi</p>").result
        = .ok (.obj [("messageId", .str "test-id")]) :=
  ⟨rfl, by decide, rfl,
    (deliverEmail_sends_one_message ⟨some "test@shabdsetu.app", none, some "test-api-key", none⟩
      sendResolves (.str "test@example.com") [emailOnly "test@example.com"] "Hello" "<p>Hi</p>"
      "test-api-key" rfl (by decide) rfl).1,
    (deliverEmail_sends_one_message ⟨some "test@shabdsetu.app", none, some "test-api-key", none⟩
      sendResolves (.str "test@example.com") [emailOnly "test@example.com"] "Hello" "<p>Hi</p>"
      "test-api-key" rfl (by decide) rfl).2.1⟩

/-! ## The view counter: auxiliary facts -/

theorem fetchAndAddView_requests (apiUrl : String) (input : EffectInput) (net : Network)
    (st : ViewCountState) :
    (fetchAndAddView apiUrl input net st).requests
      = (if (input.addView && input.isLoggedIn && !st.hasAddedViewRef) = true
          then [addViewCall apiUrl input.blogId] else [])
        ++ [getCountCall apiUrl input.blogId] := by
  unfold fetchAndAddView
  split <;> rfl

theorem fetchAndAddView_refs (apiUrl : String) (input : EffectInput) (net : Network)
    (st : ViewCountState) :
    (fetchAndAddView apiUrl input net st).state.lastBlogIdRef = st.lastBlogIdRef
    ∧ (fetchAndAddView apiUrl input net st).state.hasAddedViewRef
        = (st.hasAddedViewRef || (input.addView && input.isLoggedIn)) := by
  obtain ⟨addViewError, count, isMounted⟩ := net
  obtain ⟨vc, ld, added, last⟩ := st
  cases hA : input.addView <;> cases hL : input.isLoggedIn <;> cases added <;>
    cases isMounted <;> rcases count with e | ⟨ok, (e | n)⟩ <;> try cases ok
  all_goals simp [fetchAndAddView, hA, hL]

theorem getCountCall_ne_post (apiUrl : String) (blogId : BlogId) :
    (getCountCall apiUrl blogId).method ≠ "POST" := by
  simp [getCountCall]

theorem syncRefs_last (blogId : BlogId) (st : ViewCountState) :
    (syncRefs blogId st).lastBlogIdRef = blogId := by
  unfold syncRefs
  split
  · rfl
  · rename_i h
    exact not_not.1 h

theorem syncRefs_same {blogId : BlogId} {st : ViewCountState} (h : st.lastBlogIdRef = blogId) :
    syncRefs blogId st = st := by
  simp [syncRefs, h]

theorem syncRefs_other {blogId : BlogId} {st : ViewCountState} (h : st.lastBlogIdRef ≠ blogId) :
    (syncRefs blogId st).hasAddedViewRef = false := by
  simp [syncRefs, h]

theorem runEffect_eq (apiUrl : String) (input : EffectInput) (net : Network)
    (st : ViewCountState) :
    runEffect apiUrl input net st
      = if (input.blogId.truthy && (!input.addView || input.rehydrated)) = true then
          fetchAndAddView apiUrl input net (syncRefs input.blogId st)
        else ⟨syncRefs input.blogId st, [], []⟩ :=
  rfl

/-- A run for the identifier the refs already hold, with a view recorded:
no increment request, and the refs stay. -/
theorem runEffect_recorded (apiUrl : String) (input : EffectInput) (net : Network)
    (st : ViewCountState) (hl : st.lastBlogIdRef = input.blogId)
    (ha : st.hasAddedViewRef = true) :
    (runEffect apiUrl input net st).state.lastBlogIdRef = input.blogId
    ∧ (runEffect apiUrl input net st).state.hasAddedViewRef = true
    ∧ ∀ call ∈ (runEffect apiUrl input net st).requests, call.method ≠ "POST" := by
  rw [runEffect_eq, syncRefs_same hl]
  split
  · refine ⟨?_, ?_, ?_⟩
    · rw [(fetchAndAddView_refs apiUrl input net st).1, hl]
    · rw [(fetchAndAddView_refs apiUrl input net st).2, ha, Bool.true_or]
    · intro call hc
      rw [fetchAndAddView_requests, ha] at hc
      simp only [Bool.not_true, Bool.and_false, Bool.false_eq_true, if_false, List.nil_append,
        List.mem_singleton] at hc
      rw [hc]
      exact getCountCall_ne_post apiUrl input.blogId
  · exact ⟨hl, ha, fun call hc => by cases hc⟩

/-- A run that issued the increment request leaves the view recorded for its
identifier. -/
theorem runEffect_records (apiUrl : String) (input : EffectInput) (net : Network)
    (st : ViewCountState)
    (h : addViewCall apiUrl input.blogId ∈ (runEffect apiUrl input net st).requests) :
    (runEffect apiUrl input net st).state.lastBlogIdRef = input.blogId
    ∧ (runEffect apiUrl input net st).state.hasAddedViewRef = true := by
  rw [runEffect_eq] at h ⊢
  split at h
  · rename_i hgo
    rw [if_pos hgo]
    rw [fetchAndAddView_requests] at h
    refine ⟨?_, ?_⟩
    · rw [(fetchAndAddView_refs _ _ _ _).1, syncRefs_last]
    · rw [(fetchAndAddView_refs _ _ _ _).2]
      split at h
      · rename_i hc
        simp only [Bool.and_eq_true] at hc
        simp [hc.1.1, hc.1.2]
      · simp only [List.nil_append, List.mem_singleton] at h
        exact absurd (congrArg FetchCall.method h) (by simp [addViewCall, getCountCall])
  · cases h

theorem runEffects_recorded (apiUrl : String) (X : BlogId) :
    ∀ (later : List (EffectInput × Network)) (st : ViewCountState),
      st.lastBlogIdRef = X → st.hasAddedViewRef = true → (∀ r ∈ later, r.1.blogId = X) →
      (runEffects apiUrl later st).1.lastBlogIdRef = X
      ∧ (runEffects apiUrl later st).1.hasAddedViewRef = true
      ∧ ∀ reqs ∈ (runEffects apiUrl later st).2, ∀ call ∈ reqs, call.method ≠ "POST"
  | [], st, hl, ha, _ => ⟨hl, ha, fun reqs hr => by cases hr⟩
  | (input, net) :: later, st, hl, ha, hs => by
    have hb : input.blogId = X := hs (input, net) (List.mem_cons_self _ _)
    have h1 := runEffect_recorded apiUrl input net st (hl.trans hb.symm) ha
    have h2 := runEffects_recorded apiUrl X later (runEffect apiUrl input net st).state
      (h1.1.trans hb) h1.2.1 (fun r hr => hs r (List.mem_cons_of_mem _ hr))
    refine ⟨h2.1, h2.2.1, ?_⟩
    intro reqs hr
    simp only [runEffects, List.mem_cons] at hr
    rcases hr with rfl | hr
    · exact h1.2.2
    · exact h2.2.2 reqs hr

/-- The first run for a present identifier other than the one the refs hold,
with all three flags set: the increment request, then the read request. -/
theorem runEffect_new_id (apiUrl : String) (Y : BlogId) (net : Network) (st : ViewCountState)
    (hne : st.lastBlogIdRef ≠ Y) (hY : Y.truthy = true) :
    (runEffect apiUrl ⟨Y, true, true, true⟩ net st).requests
      = [addViewCall apiUrl Y, getCountCall apiUrl Y] := by
  rw [runEffect_eq]
  simp only [hY, Bool.not_true, Bool.or_true, Bool.and_self, if_true]
  rw [fetchAndAddView_requests, syncRefs_other hne]
  rfl

/-! ## The view counter: claims -/

/-- C18: an effect run on a fresh component with a non-empty resource id and
`addView`, `isLoggedIn` and `rehydrated` all true issues exactly two requests:
first POST `/view/add-view` with that `blogId`, then GET `/view/:blogId`,
whether the POST resolves or rejects (and whatever the GET answers). -/
theorem viewCount_fresh_run (apiUrl s : String) (net : Network) (hs : s ≠ "") :
    (runEffect apiUrl ⟨.str s, true, true, true⟩ net ViewCountState.fresh).requests
      = [⟨"POST", apiUrl ++ "/view/add-view", some (.str s)⟩,
          ⟨"GET", apiUrl ++ "/view/" ++ s, none⟩] := by
  have h := runEffect_new_id apiUrl (.str s) net ViewCountState.fresh
    (by simp [ViewCountState.fresh]) (by simp [BlogId.truthy, hs])
  rw [h]
  rfl

/-- Witness of C18: the increment request rejects, the read is issued all the
same. -/
theorem viewCount_fresh_run_witness :
    "blog-xyz" ≠ "" ∧ netAddViewFails.addViewError = some "add view failed"
    ∧ (runEffect "https://api.example.com" ⟨.str "blog-xyz", true, true, true⟩ netAddViewFails
        ViewCountState.fresh).requests
      = [⟨"POST", "https://api.example.com" ++ "/view/add-view", some (.str "blog-xyz")⟩,
          ⟨"GET", "https://api.example.com" ++ "/view/" ++ "blog-xyz", none⟩] :=
  ⟨by decide, rfl,
    viewCount_fresh_run "https://api.example.com" "blog-xyz" netAddViewFails (by decide)⟩

/-- C19: after an effect run that issued the increment request for its
resource id `X`, no later run with the same id `X` issues a POST, whatever its
flags, as long as no run with another id comes in between; and the first run
with a different, present id `Y` and all three flags set issues the increment
request for `Y` (followed by the read request). -/
theorem viewCount_guard (apiUrl : String) (first : EffectInput) (net : Network)
    (st : ViewCountState) (later : List (EffectInput × Network))
    (hpost : addViewCall apiUrl first.blogId ∈ (runEffect apiUrl first net st).requests)
    (hsame : ∀ r ∈ later, r.1.blogId = first.blogId) :
    (∀ reqs ∈ (runEffects apiUrl later (runEffect apiUrl first net st).state).2,
      ∀ call ∈ reqs, call.method ≠ "POST")
    ∧ ∀ (Y : BlogId) (netY : Network), Y ≠ first.blogId → Y.truthy = true →
        (runEffect apiUrl ⟨Y, true, true, true⟩ netY
          (runEffects apiUrl later (runEffect apiUrl first net st).state).1).requests
        = [addViewCall apiUrl Y, getCountCall apiUrl Y] := by
  have h0 := runEffect_records apiUrl first net st hpost
  have h1 := runEffects_recorded apiUrl first.blogId later _ h0.1 h0.2 hsame
  refine ⟨h1.2.2, fun Y netY hne hY => ?_⟩
  exact runEffect_new_id apiUrl Y netY _ (by rw [h1.1]; exact fun e => hne e.symm) hY

/-- Witness of C19: `blog-1` is viewed, rendered twice more, then `blog-2`
comes. -/
theorem viewCount_guard_witness :
    addViewCall "api" (.str "blog-1")
        ∈ (runEffect "api" ⟨.str "blog-1", true, true, true⟩ netOk ViewCountState.fresh).requests
    ∧ (runEffects "api"
          [(⟨.str "blog-1", true, true, true⟩, netOk), (⟨.str "blog-1", false, true, true⟩, netOk)]
          (runEffect "api" ⟨.str "blog-1", true, true, true⟩ netOk ViewCountState.fresh).state).2
        = [[getCountCall "api" (.str "blog-1")], [getCountCall "api" (.str "blog-1")]]
    ∧ (runEffect "api" ⟨.str "blog-2", true, true, true⟩ netOk
          (runEffects "api"
            [(⟨.str "blog-1", true, true, true⟩, netOk),
              (⟨.str "blog-1", false, true, true⟩, netOk)]
            (runEffect "api" ⟨.str "blog-1", true, true, true⟩ netOk
              ViewCountState.fresh).state).1).requests
        = [addViewCall "api" (.str "blog-2"), getCountCall "api" (.str "blog-2")] :=
  ⟨by decide, by decide,
    (viewCount_guard "api" ⟨.str "blog-1", true, true, true⟩ netOk ViewCountState.fresh
      [(⟨.str "blog-1", true, true, true⟩, netOk), (⟨.str "blog-1", false, true, true⟩, netOk)]
      (by decide) (by decide)).2 (.str "blog-2") netOk (by decide) (by decide)⟩

/-- C20 (as the code has it): every effect run for a non-empty resource
identifier in which `addView` is unset or rehydration has completed issues the
read request GET `/view/:blogId`, as its last request, whether or not the
caller is authenticated and whether or not a view is already recorded. -/
theorem viewCount_read_when_enabled (apiUrl : String) (input : EffectInput) (net : Network)
    (st : ViewCountState) (hb : input.blogId.truthy = true)
    (hgate : input.addView = false ∨ input.rehydrated = true) :
    (runEffect apiUrl input net st).requests.getLast?
        = some ⟨"GET", apiUrl ++ "/view/" ++ input.blogId.toText, none⟩
    ∧ getCountCall apiUrl input.blogId ∈ (runEffect apiUrl input net st).requests := by
  have hgo : (input.blogId.truthy && (!input.addView || input.rehydrated)) = true := by
    rcases hgate with h | h <;> simp [hb, h]
  have hr : ∃ pre, (runEffect apiUrl input net st).requests
      = pre ++ [getCountCall apiUrl input.blogId] := by
    rw [runEffect_eq, if_pos hgo, fetchAndAddView_requests]
    exact ⟨_, rfl⟩
  obtain ⟨pre, hpre⟩ := hr
  rw [hpre]
  exact ⟨by simp [getCountCall], by simp⟩

/-- Witness of C20: a logged-out caller with `addView` set and rehydration
completed gets the read request only. -/
theorem viewCount_read_when_enabled_witness :
    (BlogId.str "blog-xyz").truthy = true ∧ (true = false ∨ true = true)
    ∧ getCountCall "api" (.str "blog-xyz")
        ∈ (runEffect "api" ⟨.str "blog-xyz", true, false, true⟩ netOk
            ViewCountState.fresh).requests :=
  ⟨by decide, Or.inr rfl,
    (viewCount_read_when_enabled "api" ⟨.str "blog-xyz", true, false, true⟩ netOk
      ViewCountState.fresh (by decide) (Or.inr rfl)).2⟩

/-- Counterexample to C20 as stated: with a non-empty identifier, `addView`
set and rehydration not completed, the run issues no request at all, so no
read request. -/
theorem viewCount_read_counterexample :
    (BlogId.str "blog-xyz").truthy = true
    ∧ (runEffect "api" ⟨.str "blog-xyz", true, true, false⟩ netOk
        ViewCountState.fresh).requests = []
    ∧ getCountCall "api" (.str "blog-xyz")
        ∉ (runEffect "api" ⟨.str "blog-xyz", true, true, false⟩ netOk
            ViewCountState.fresh).requests := by
  decide

/-! ## The view counter: further facts and claims -/

/-- The requests of one effect run: none, the read alone, or the increment
followed by the read. -/
theorem runEffect_requests_cases (apiUrl : String) (input : EffectInput) (net : Network)
    (st : ViewCountState) :
    (runEffect apiUrl input net st).requests = []
    ∨ (runEffect apiUrl input net st).requests = [getCountCall apiUrl input.blogId]
    ∨ (runEffect apiUrl input net st).requests
        = [addViewCall apiUrl input.blogId, getCountCall apiUrl input.blogId] := by
  rw [runEffect_eq]
  split
  · rw [fetchAndAddView_requests]
    split
    · exact Or.inr (Or.inr rfl)
    · exact Or.inr (Or.inl rfl)
  · exact Or.inl rfl

theorem runEffect_requests_of_gate_closed (apiUrl : String) (input : EffectInput)
    (net : Network) (st : ViewCountState)
    (h : (input.blogId.truthy && (!input.addView || input.rehydrated)) = false) :
    (runEffect apiUrl input net st).requests = [] := by
  rw [runEffect_eq, if_neg (by simp [h])]

theorem runEffect_requests_of_gate_open (apiUrl : String) (input : EffectInput)
    (net : Network) (st : ViewCountState)
    (h : (input.blogId.truthy && (!input.addView || input.rehydrated)) = true) :
    (runEffect apiUrl input net st).requests
      = (if (input.addView && input.isLoggedIn
            && !(syncRefs input.blogId st).hasAddedViewRef) = true
          then [addViewCall apiUrl input.blogId] else [])
        ++ [getCountCall apiUrl input.blogId] := by
  rw [runEffect_eq, if_pos h, fetchAndAddView_requests]

theorem countP_post_of_cases (apiUrl : String) (input : EffectInput) (net : Network)
    (st : ViewCountState) :
    ((runEffect apiUrl input net st).requests.countP
        (fun call => decide (call.method = "POST")) = 0
      ∧ ∀ call ∈ (runEffect apiUrl input net st).requests, call.method ≠ "POST")
    ∨ ((runEffect apiUrl input net st).requests.countP
        (fun call => decide (call.method = "POST")) = 1
      ∧ addViewCall apiUrl input.blogId ∈ (runEffect apiUrl input net st).requests) := by
  rcases runEffect_requests_cases apiUrl input net st with h | h | h <;> rw [h]
  · exact Or.inl ⟨rfl, fun call hc => by cases hc⟩
  · left
    simp [getCountCall]
  · right
    simp [getCountCall, addViewCall]

/-- Runs for one and the same identifier issue at most one increment
request, from any state of the refs. -/
theorem incrementCount_same_id (apiUrl : String) (X : BlogId) :
    ∀ (runs : List (EffectInput × Network)) (st : ViewCountState),
      (∀ r ∈ runs, r.1.blogId = X) → incrementCount (runEffects apiUrl runs st).2 ≤ 1
  | [], _, _ => by simp [runEffects, incrementCount]
  | (input, net) :: later, st, hs => by
    have hb : input.blogId = X := hs (input, net) (List.mem_cons_self _ _)
    have hl : ∀ r ∈ later, r.1.blogId = X := fun r hr => hs r (List.mem_cons_of_mem _ hr)
    have hsplit : incrementCount (runEffects apiUrl ((input, net) :: later) st).2
        = (runEffect apiUrl input net st).requests.countP
            (fun call => decide (call.method = "POST"))
          + incrementCount (runEffects apiUrl later (runEffect apiUrl input net st).state).2 := by
      simp [runEffects, incrementCount]
    rw [hsplit]
    rcases countP_post_of_cases apiUrl input net st with ⟨h0, _⟩ | ⟨h1, hmem⟩
    · rw [h0, Nat.zero_add]
      exact incrementCount_same_id apiUrl X later _ hl
    · have hrec := runEffect_records apiUrl input net st hmem
      have hnone := (runEffects_recorded apiUrl X later (runEffect apiUrl input net st).state
        (hrec.1.trans hb) hrec.2 hl).2.2
      have hz : incrementCount (runEffects apiUrl later (runEffect apiUrl input net st).state).2
          = 0 := by
        unfold incrementCount
        apply List.sum_eq_zero
        intro n hn
        obtain ⟨reqs, hr, rfl⟩ := List.mem_map.1 hn
        rw [List.countP_eq_zero]
        intro call hc
        simpa using hnone reqs hr call hc
      rw [h1, hz]

/-- C21 (as the code has it): in every sequence of effect runs that all have
the same resource identifier, whatever their flags and whatever the refs hold
before, at most one increment request is issued: a view recorded for an
identifier is not recorded again for it as long as no run with another
identifier comes in between. -/
theorem viewCount_one_increment_per_stretch (apiUrl : String) (X : BlogId)
    (runs : List (EffectInput × Network)) (st : ViewCountState)
    (hsame : ∀ r ∈ runs, r.1.blogId = X) :
    incrementCount (runEffects apiUrl runs st).2 ≤ 1 :=
  incrementCount_same_id apiUrl X runs st hsame

/-- Witness of C21: three runs for `blog-1`, one increment. -/
theorem viewCount_one_increment_per_stretch_witness :
    (∀ r ∈ [((⟨.str "blog-1", true, true, true⟩ : EffectInput), netOk),
        (⟨.str "blog-1", true, true, true⟩, netOk), (⟨.str "blog-1", true, true, true⟩, netOk)],
      r.1.blogId = .str "blog-1")
    ∧ incrementCount (runEffects "api"
        [(⟨.str "blog-1", true, true, true⟩, netOk), (⟨.str "blog-1", true, true, true⟩, netOk),
          (⟨.str "blog-1", true, true, true⟩, netOk)] ViewCountState.fresh).2 ≤ 1 :=
  ⟨by simp,
    viewCount_one_increment_per_stretch "api" (.str "blog-1")
      [(⟨.str "blog-1", true, true, true⟩, netOk), (⟨.str "blog-1", true, true, true⟩, netOk),
        (⟨.str "blog-1", true, true, true⟩, netOk)] ViewCountState.fresh (by simp)⟩

/-- Counterexample to C21 as stated: within one component lifetime the runs
for `blog-1`, `blog-2`, `blog-1` issue the increment request for `blog-1`
twice. -/
theorem viewCount_reincrement_counterexample :
    ((runEffects "api"
        [(⟨.str "blog-1", true, true, true⟩, netOk), (⟨.str "blog-2", true, true, true⟩, netOk),
          (⟨.str "blog-1", true, true, true⟩, netOk)] ViewCountState.fresh).2.flatten.count
      (addViewCall "api" (.str "blog-1"))) = 2 := by
  decide

/-- C22: an effect run issues no request at all when the resource identifier
is absent, or when `addView` is set and rehydration has not completed; in
every other run (identifier present, and `addView` unset or rehydration
completed) it issues the read request GET `/view/:blogId`. -/
theorem viewCount_request_gate (apiUrl : String) (input : EffectInput) (net : Network)
    (st : ViewCountState) :
    ((input.blogId.truthy = false ∨ (input.addView = true ∧ input.rehydrated = false)) →
      (runEffect apiUrl input net st).requests = [])
    ∧ ((input.blogId.truthy = true ∧ (input.addView = false ∨ input.rehydrated = true)) →
      (⟨"GET", apiUrl ++ "/view/" ++ input.blogId.toText, none⟩ : FetchCall)
        ∈ (runEffect apiUrl input net st).requests) := by
  constructor
  · intro h
    apply runEffect_requests_of_gate_closed
    rcases h with h | ⟨ha, hr⟩
    · simp [h]
    · simp [ha, hr]
  · rintro ⟨hb, h⟩
    have hgo : (input.blogId.truthy && (!input.addView || input.rehydrated)) = true := by
      rcases h with h | h <;> simp [hb, h]
    rw [runEffect_requests_of_gate_open apiUrl input net st hgo]
    simp [getCountCall]

/-- Witness of C22: no identifier, no request; an identifier without
`addView`, the read request. -/
theorem viewCount_request_gate_witness :
    (runEffect "api" ⟨.null, true, false, true⟩ netOk ViewCountState.fresh).requests = []
    ∧ (⟨"GET", "api" ++ "/view/" ++ "blog-xyz", none⟩ : FetchCall)
        ∈ (runEffect "api" ⟨.str "blog-xyz", false, false, false⟩ netOk
            ViewCountState.fresh).requests :=
  ⟨(viewCount_request_gate "api" ⟨.null, true, false, true⟩ netOk ViewCountState.fresh).1
      (Or.inl rfl),
    (viewCount_request_gate "api" ⟨.str "blog-xyz", false, false, false⟩ netOk
      ViewCountState.fresh).2 ⟨by decide, Or.inl rfl⟩⟩

/-- C23 (as the code has it): an effect run issues no increment request when
the caller is not authenticated, or `addView` is unset, or rehydration has not
completed; and for a present resource identifier, with `addView` set,
rehydration completed and the caller not authenticated, the run issues exactly
one request, the GET read. -/
theorem viewCount_no_increment_unless_allowed (apiUrl : String) (input : EffectInput)
    (net : Network) (st : ViewCountState) :
    ((input.isLoggedIn = false ∨ input.addView = false ∨ input.rehydrated = false) →
      ∀ call ∈ (runEffect apiUrl input net st).requests, call.method ≠ "POST")
    ∧ (input.blogId.truthy = true → input.addView = true → input.rehydrated = true →
        input.isLoggedIn = false →
      (runEffect apiUrl input net st).requests
        = [⟨"GET", apiUrl ++ "/view/" ++ input.blogId.toText, none⟩]) := by
  constructor
  · intro h call hc
    by_cases hgo : (input.blogId.truthy && (!input.addView || input.rehydrated)) = true
    · rw [runEffect_requests_of_gate_open apiUrl input net st hgo] at hc
      have hcond : (input.addView && input.isLoggedIn
          && !(syncRefs input.blogId st).hasAddedViewRef) = false := by
        rcases h with h | h | h
        · simp [h]
        · simp [h]
        · cases ha : input.addView
          · simp
          · simp [ha, h] at hgo
      rw [hcond] at hc
      simp only [Bool.false_eq_true, if_false, List.nil_append, List.mem_singleton] at hc
      rw [hc]
      exact getCountCall_ne_post apiUrl input.blogId
    · rw [runEffect_requests_of_gate_closed apiUrl input net st (by simpa using hgo)] at hc
      cases hc
  · intro hb ha hr hl
    rw [runEffect_requests_of_gate_open apiUrl input net st (by simp [hb, ha, hr])]
    simp [ha, hl, getCountCall]

/-- Witness of C23: the logged-out run of the tests. -/
theorem viewCount_no_increment_unless_allowed_witness :
    (BlogId.str "blog-xyz").truthy = true
    ∧ (runEffect "api" ⟨.str "blog-xyz", true, false, true⟩ netOk ViewCountState.fresh).requests
        = [⟨"GET", "api" ++ "/view/" ++ "blog-xyz", none⟩] :=
  ⟨by decide,
    (viewCount_no_increment_unless_allowed "api" ⟨.str "blog-xyz", true, false, true⟩ netOk
      ViewCountState.fresh).2 (by decide) rfl rfl rfl⟩

/-- Counterexample to C23 as stated: with `addView` set, rehydration completed
and the caller not authenticated, a run without resource identifier issues no
request, so not exactly one. -/
theorem viewCount_logged_out_counterexample :
    (runEffect "api" ⟨.null, true, false, true⟩ netOk ViewCountState.fresh).requests = []
    ∧ (runEffect "api" ⟨.null, true, false, true⟩ netOk ViewCountState.fresh).requests.length
        ≠ 1 := by
  decide

/-! ## The follow controller: further facts and claims -/

theorem edgeInvariant_of_reachable {c : FollowColl} (h : Reachable c) : c.EdgeInvariant := by
  induction h with
  | empty => exact ⟨List.nodup_nil, fun d hd => by cases hd⟩
  | follow casts notifyFollow users now req _ ih =>
    rcases followUser_docs_cases casts notifyFollow users now req _ with hs | ⟨a, t, hat, hno, hs⟩
    · exact EdgeInvariant_of_sublist hs ih
    · exact EdgeInvariant_of_append hs hat hno ih
  | unfollow casts req _ ih =>
    exact EdgeInvariant_of_sublist (unfollowUser_sublist casts req _) ih

theorem sat_pairQuery_some (t a : String) (d : FollowDoc) :
    (pairQuery ⟨t, .present (some a)⟩).sat d = (FollowQuery.mk (.eq a) (.eq t)).sat d :=
  rfl

theorem sat_pairQuery_none (t : String) (d : FollowDoc) :
    (pairQuery ⟨t, .present none⟩).sat d = false := by
  simp [pairQuery, Req.user_id, FollowQuery.sat, FieldCond.ofOption, FieldCond.sat]

theorem followUser_edgeChange (casts : String → Bool)
    (notifyFollow : String → String → Except String Unit)
    (users : List UserDoc) (now : Nat) (req : Req) (c : FollowColl) :
    EdgeChange req c.docs (followUser casts notifyFollow users now req c).follows.docs := by
  obtain ⟨t, user⟩ := req
  cases user with
  | absent => left; rfl
  | present actor =>
    cases actor with
    | none => left; simp [followUser, followUserTry]
    | some a =>
      by_cases ha : a = ""
      · left; simp [followUser, followUserTry, truthy, ha]
      by_cases hat : a = t
      · subst hat; left; simp [followUser, followUserTry, truthy_some ha]
      cases hu : User.findById casts t users with
      | error e =>
        left
        rw [followUser_keeps_of_not_found casts notifyFollow users now c
          (fun u h => by rw [hu] at h; cases h)]
      | ok found =>
        cases found with
        | none =>
          left
          rw [followUser_keeps_of_not_found casts notifyFollow users now c
            (fun u h => by rw [hu] at h; cases h)]
        | some u =>
          cases hd : Follow.findOne ⟨.eq a, .eq t⟩ c with
          | some d =>
            right; left
            exact ⟨d, List.mem_of_find?_eq_some hd, List.find?_some hd,
              (followUser_delete_path casts notifyFollow users now c ha hat hu hd).2.2⟩
          | none =>
            right; right
            refine ⟨⟨Follow.freshId c.docs, a, t, now⟩, ?_,
              (followUser_create_path casts notifyFollow users now c ha hat hu hd).2.2⟩
            simp [pairQuery, Req.user_id, FollowQuery.sat, FieldCond.ofOption, FieldCond.sat]

theorem unfollowUser_edgeChange (casts : String → Bool) (req : Req) (c : FollowColl) :
    EdgeChange req c.docs (unfollowUser casts req c).follows.docs := by
  rcases unfollowUser_docs casts req c with h | ⟨d, hm, hd, h⟩
  · left; exact h
  · right; left
    exact ⟨d, hm, hd, h⟩

theorem filter_erase_of_not_sat {p : FollowDoc → Bool} {d : FollowDoc} :
    ∀ {l : List FollowDoc}, p d = false → (l.erase d).filter p = l.filter p
  | [], _ => rfl
  | x :: xs, hp => by
    by_cases hx : x = d
    · subst hx
      simp [hp]
    · rw [List.erase_cons_tail (by simpa using hx), List.filter_cons, List.filter_cons,
        filter_erase_of_not_sat hp]

/-- A predicate that holds of no edge from the actor to the target picks the
same documents, in the same order, before and after the change. -/
theorem EdgeChange.filter_eq {req : Req} {before after : List FollowDoc}
    (h : EdgeChange req before after) {p : FollowDoc → Bool}
    (hp : ∀ d, (pairQuery req).sat d = true → p d = false) :
    after.filter p = before.filter p := by
  rcases h with rfl | ⟨d, _, hd, rfl⟩ | ⟨d, hd, rfl⟩
  · rfl
  · exact filter_erase_of_not_sat (hp d hd)
  · simp [List.filter_append, hp d hd]

theorem EdgeChange.countP_eq {req : Req} {before after : List FollowDoc}
    (h : EdgeChange req before after) {p : FollowDoc → Bool}
    (hp : ∀ d, (pairQuery req).sat d = true → p d = false) :
    after.countP p = before.countP p := by
  rw [List.countP_eq_length_filter, List.countP_eq_length_filter, h.filter_eq hp]

theorem EdgeChange.count_pair {req : Req} {before after : List FollowDoc}
    (h : EdgeChange req before after) :
    after.countP (pairQuery req).sat ≤ before.countP (pairQuery req).sat + 1
    ∧ before.countP (pairQuery req).sat ≤ after.countP (pairQuery req).sat + 1 := by
  rcases h with rfl | ⟨d, hm, hd, rfl⟩ | ⟨d, hd, rfl⟩
  · exact ⟨Nat.le_succ _, Nat.le_succ _⟩
  · have := countP_erase_of_sat hm hd
    omega
  · have : (before ++ [d]).countP (pairQuery req).sat
        = before.countP (pairQuery req).sat + 1 := by
      simp [List.countP_append, hd]
    omega

theorem EdgeChange.stats_eq {req : Req} {c c' : FollowColl}
    (h : EdgeChange req c.docs c'.docs) {u : String} (user : ReqUser)
    (hua : some u ≠ req.user_id) (hut : u ≠ req.userId) :
    getFollowStats ⟨u, user⟩ c' = getFollowStats ⟨u, user⟩ c := by
  have h1 : c'.docs.countP (FollowQuery.mk .unset (.eq u)).sat
      = c.docs.countP (FollowQuery.mk .unset (.eq u)).sat := by
    apply h.countP_eq
    intro d hd
    rw [sat_following]
    simp only [pairQuery, FollowQuery.sat, Bool.and_eq_true] at hd
    have ht : d.following = req.userId := by simpa [FieldCond.sat] using hd.2
    simp only [decide_eq_false_iff_not]
    exact fun e => hut (e.symm.trans ht)
  have h2 : c'.docs.countP (FollowQuery.mk (.eq u) .unset).sat
      = c.docs.countP (FollowQuery.mk (.eq u) .unset).sat := by
    apply h.countP_eq
    intro d hd
    rw [sat_follower]
    simp only [pairQuery, FollowQuery.sat, Bool.and_eq_true] at hd
    have ha : some d.follower = req.user_id := by
      cases hr : req.user_id with
      | none => rw [hr] at hd; simp [FieldCond.ofOption, FieldCond.sat] at hd
      | some a =>
        rw [hr] at hd
        have : d.follower = a := by simpa [FieldCond.ofOption, FieldCond.sat] using hd.1
        rw [this]
    simp only [decide_eq_false_iff_not]
    exact fun e => hua (e ▸ ha)
  simp only [getFollowStats, Follow.countDocuments, h1, h2]

/-- C24: in every collection reachable from the empty one by sequential
`followUser` and `unfollowUser` calls, for a present actor `a` and an existing
target `t ≠ a`, `followUser` answers with success and a `following` flag, and
`checkFollowStatus` for `a` and `t` on the resulting collection returns that
flag as `isFollowing`. -/
theorem followUser_flag_agrees_with_status (casts : String → Bool)
    (notifyFollow : String → String → Except String Unit)
    (users : List UserDoc) (now : Nat) (a t : String) (c : FollowColl) (u : UserDoc)
    (hr : Reachable c) (ha : a ≠ "") (hat : a ≠ t) (hu : User.findById casts t users = .ok (some u)) :
    ∃ (status : Nat) (flag : Bool) (message : String),
      (followUser casts notifyFollow users now ⟨t, .present (some a)⟩ c).reply = .json status ⟨true, flag, message⟩
      ∧ checkFollowStatus ⟨t, .present (some a)⟩ (followUser casts notifyFollow users now ⟨t, .present (some a)⟩ c).follows
          = .json 200 ⟨true, flag⟩ := by
  have hle := count_le_one_of_edgeInvariant (edgeInvariant_of_reachable hr) a t
  have hcount := count_followUser casts notifyFollow users now c ha hat hu
  rw [checkFollowStatus_eq, hcount]
  cases hd : Follow.findOne ⟨.eq a, .eq t⟩ c with
  | some d =>
    have hpos : 0 < Follow.countDocuments ⟨.eq a, .eq t⟩ c :=
      (hasEdge_iff_count_pos a t c).1 ((findOne_isSome_iff a t c).1 (by rw [hd]; rfl))
    refine ⟨200, false, "Unfollowed user.",
      (followUser_delete_path casts notifyFollow users now c ha hat hu hd).2.1, ?_⟩
    have h1 : Follow.countDocuments ⟨.eq a, .eq t⟩ c = 1 := by omega
    simp [h1]
  | none =>
    have h0 : Follow.countDocuments ⟨.eq a, .eq t⟩ c = 0 := by
      have := (findOne_eq_none_iff a t c).1 hd
      rw [hasEdge_iff_count_pos] at this
      omega
    refine ⟨201, true, "Successfully followed user.",
      (followUser_create_path casts notifyFollow users now c ha hat hu hd).2.1, ?_⟩
    simp [h0]

/-- Witness of C24: `t` follows `a` back in the collection reached by one
follow of `a`. -/
theorem followUser_flag_agrees_with_status_witness :
    Reachable (followUser exampleCasts notifyOk exampleUsers 5 ⟨"t", .present (some "a")⟩ FollowColl.empty).follows
    ∧ "a" ≠ "" ∧ "a" ≠ "t"
    ∧ User.findById exampleCasts "t" exampleUsers = .ok (some ⟨"t", "T", "", "t@x", "tt"⟩)
    ∧ ∃ (status : Nat) (flag : Bool) (message : String),
      (followUser exampleCasts notifyOk exampleUsers 6 ⟨"t", .present (some "a")⟩
          (followUser exampleCasts notifyOk exampleUsers 5 ⟨"t", .present (some "a")⟩ FollowColl.empty).follows).reply
        = .json status ⟨true, flag, message⟩
      ∧ checkFollowStatus ⟨"t", .present (some "a")⟩
          (followUser exampleCasts notifyOk exampleUsers 6 ⟨"t", .present (some "a")⟩
            (followUser exampleCasts notifyOk exampleUsers 5 ⟨"t", .present (some "a")⟩ FollowColl.empty).follows).follows
        = .json 200 ⟨true, flag⟩ :=
  ⟨Reachable.follow exampleCasts notifyOk exampleUsers 5 ⟨"t", .present (some "a")⟩ Reachable.empty,
    by decide, by decide, by decide,
    followUser_flag_agrees_with_status exampleCasts notifyOk exampleUsers 6 "a" "t" _
      ⟨"t", "T", "", "t@x", "tt"⟩
      (Reachable.follow exampleCasts notifyOk exampleUsers 5 ⟨"t", .present (some "a")⟩ Reachable.empty)
      (by decide) (by decide) (by decide)⟩

/-- C25: a call of `followUser` or `unfollowUser` for actor `a` and target `t`
leaves the edges with any other (follower, following) pair exactly as they
were, changes the number of edges `a → t` by at most one, and leaves the
counts `getFollowStats` reports for every user other than `a` and `t` as they
were. -/
theorem follow_calls_frame (casts : String → Bool)
    (notifyFollow : String → String → Except String Unit)
    (users : List UserDoc) (now : Nat) (req : Req) (c : FollowColl) :
    (otherEdges req (followUser casts notifyFollow users now req c).follows = otherEdges req c
      ∧ Follow.countDocuments (pairQuery req) (followUser casts notifyFollow users now req c).follows
          ≤ Follow.countDocuments (pairQuery req) c + 1
      ∧ Follow.countDocuments (pairQuery req) c
          ≤ Follow.countDocuments (pairQuery req)
              (followUser casts notifyFollow users now req c).follows + 1
      ∧ ∀ (u : String) (user : ReqUser), some u ≠ req.user_id → u ≠ req.userId →
          getFollowStats ⟨u, user⟩ (followUser casts notifyFollow users now req c).follows
            = getFollowStats ⟨u, user⟩ c)
    ∧ (otherEdges req (unfollowUser casts req c).follows = otherEdges req c
      ∧ Follow.countDocuments (pairQuery req) (unfollowUser casts req c).follows
          ≤ Follow.countDocuments (pairQuery req) c + 1
      ∧ Follow.countDocuments (pairQuery req) c
          ≤ Follow.countDocuments (pairQuery req) (unfollowUser casts req c).follows + 1
      ∧ ∀ (u : String) (user : ReqUser), some u ≠ req.user_id → u ≠ req.userId →
          getFollowStats ⟨u, user⟩ (unfollowUser casts req c).follows
            = getFollowStats ⟨u, user⟩ c) := by
  have hf := followUser_edgeChange casts notifyFollow users now req c
  have hu := unfollowUser_edgeChange casts req c
  refine ⟨⟨?_, hf.count_pair.1, hf.count_pair.2, fun u user h1 h2 => hf.stats_eq user h1 h2⟩,
    ⟨?_, hu.count_pair.1, hu.count_pair.2, fun u user h1 h2 => hu.stats_eq user h1 h2⟩⟩
  · exact hf.filter_eq (fun d hd => by simp [hd])
  · exact hu.filter_eq (fun d hd => by simp [hd])

/-- Witness of C25: `a` unfollows `t` among four edges; the other three stay,
and the counts of `z` stay. -/
theorem follow_calls_frame_witness :
    otherEdges ⟨"t", .present (some "a")⟩ (unfollowUser exampleCasts ⟨"t", .present (some "a")⟩ fourEdges).follows
        = [⟨2, "b", "t", 9⟩, ⟨3, "t", "a", 8⟩, ⟨4, "z", "t", 3⟩]
    ∧ some "z" ≠ some "a" ∧ "z" ≠ "t"
    ∧ getFollowStats ⟨"z", .present none⟩ (unfollowUser exampleCasts ⟨"t", .present (some "a")⟩ fourEdges).follows
        = getFollowStats ⟨"z", .present none⟩ fourEdges :=
  ⟨by decide, by decide, by decide,
    (follow_calls_frame exampleCasts notifyOk exampleUsers 5 ⟨"t", .present (some "a")⟩ fourEdges).2.2.2.2
      "z" (.present none) (by decide) (by decide)⟩

/-! ## The mailer: further facts and claims -/

theorem normalizeRecipients_ok_entries {recipient : JsVal} {rs : List JsVal}
    (h : normalizeRecipients recipient = .ok rs) :
    mapThrowing normalizeEntry (entriesOf recipient) = .ok rs := by
  unfold normalizeRecipients at h
  split at h
  · cases h
  · exact h

theorem typeof_string_iff (x : JsVal) : x.typeof = "string" ↔ ∃ s, x = .str s := by
  cases x <;> simp [JsVal.typeof]

/-- What a successful `normalizeEntry` returns: `{ email: s }` for a string
`s`, and `{ email, name }` with a truthy email for an object. -/
theorem normalizeEntry_ok_cases {x r : JsVal} (h : normalizeEntry x = .ok r) :
    (∃ s, x = .str s ∧ r = emailOnly s)
    ∨ ((x.get "email").truthy = true ∧ r = recipientRecord (x.get "email") (x.get "name")) := by
  unfold normalizeEntry at h
  split at h
  · rename_i hs
    obtain ⟨s, rfl⟩ := (typeof_string_iff x).1 hs
    left
    refine ⟨s, rfl, ?_⟩
    injection h with h
    exact h.symm
  · split at h
    · rename_i hc
      right
      simp only [Bool.and_eq_true] at hc
      refine ⟨hc.2, ?_⟩
      injection h with h
      exact h.symm
    · cases h

theorem mapThrowing_ok_forall₂ {α β ε : Type} (callback : α → Except ε β) :
    ∀ (xs : List α) (rs : List β), mapThrowing callback xs = .ok rs →
      List.Forall₂ (fun x r => callback x = .ok r) xs rs
  | [], rs, h => by
    simp only [mapThrowing] at h
    injection h with h
    subst h
    exact List.Forall₂.nil
  | x :: xs, rs, h => by
    simp only [mapThrowing] at h
    cases hx : callback x with
    | error e => rw [hx] at h; cases h
    | ok r =>
      rw [hx] at h
      cases hxs : mapThrowing callback xs with
      | error e => rw [hxs] at h; cases h
      | ok rs' =>
        rw [hxs] at h
        injection h with h
        subst h
        exact List.Forall₂.cons hx (mapThrowing_ok_forall₂ callback xs rs' hxs)

theorem normalizeEntry_emailOnly {s : String} (hs : s ≠ "") :
    normalizeEntry (emailOnly s) = .ok (recipientRecord (.str s) .undefined) := by
  have ht : (JsVal.str s).truthy = true := by simp [JsVal.truthy, hs]
  have ho : (JsVal.obj [("email", JsVal.str s)]).truthy = true := rfl
  simp [normalizeEntry, emailOnly, recipientRecord, JsVal.typeof, JsVal.get, List.lookup, ht, ho]

/-- A recipient built from an entry other than the empty string carries a
truthy email and is normalized to a recipient with the same email and name. -/
theorem normalizeEntry_again {x r : JsVal} (h : normalizeEntry x = .ok r)
    (hx : x ≠ .str "") :
    (r.get "email").truthy = true
    ∧ ∃ r', normalizeEntry r = .ok r' ∧ sameRecipient r r' := by
  rcases normalizeEntry_ok_cases h with ⟨s, rfl, rfl⟩ | ⟨he, rfl⟩
  · have hs : s ≠ "" := fun e => hx (by rw [e])
    refine ⟨by simp [emailOnly, JsVal.get, List.lookup, JsVal.truthy, hs],
      _, normalizeEntry_emailOnly hs, ?_⟩
    constructor <;> simp [emailOnly, recipientRecord, JsVal.get, List.lookup]
  · refine ⟨by simpa [recipientRecord, JsVal.get, List.lookup] using he,
      _, normalizeEntry_record _ _ he, ?_⟩
    exact And.intro rfl rfl

theorem mapThrowing_again {xs rs : List JsVal}
    (h : List.Forall₂ (fun x r => normalizeEntry x = .ok r) xs rs) (hne : JsVal.str "" ∉ xs) :
    (∀ r ∈ rs, (r.get "email").truthy = true)
    ∧ ∃ rs', mapThrowing normalizeEntry rs = .ok rs' ∧ List.Forall₂ sameRecipient rs rs' := by
  induction h with
  | nil => exact ⟨(fun r hr => by cases hr), ⟨[], rfl, List.Forall₂.nil⟩⟩
  | cons hx _ ih =>
    have h1 := normalizeEntry_again hx (fun e => hne (e ▸ List.mem_cons_self _ _))
    have h2 := ih (fun m => hne (List.mem_cons_of_mem _ m))
    obtain ⟨r', hr', hsame⟩ := h1.2
    obtain ⟨rs', hrs', hsames⟩ := h2.2
    refine ⟨?_, r' :: rs', ?_, List.Forall₂.cons hsame hsames⟩
    · intro y hy
      rcases List.mem_cons.1 hy with rfl | hy
      · exact h1.1
      · exact h2.1 y hy
    · simp only [mapThrowing, hr', hrs']

/-- C26 (as the code has it): for every input on which `normalizeRecipients`
succeeds and that holds no empty string as an entry, every recipient in the
result carries a non-empty (truthy) email, and `normalizeRecipients` applied
again to its own result succeeds and returns recipients with the same email
and the same name, in the same order. -/
theorem normalizeRecipients_again (recipient : JsVal) (rs : List JsVal)
    (h : normalizeRecipients recipient = .ok rs)
    (hne : JsVal.str "" ∉ entriesOf recipient) :
    (∀ r ∈ rs, (r.get "email").truthy = true)
    ∧ ∃ rs', normalizeRecipients (.arr rs) = .ok rs' ∧ List.Forall₂ sameRecipient rs rs' := by
  have hf := mapThrowing_ok_forall₂ normalizeEntry _ _ (normalizeRecipients_ok_entries h)
  have := mapThrowing_again hf hne
  rw [normalizeRecipients_arr]
  exact this

/-- Witness of C26: a string and a record. -/
theorem normalizeRecipients_again_witness :
    normalizeRecipients (.arr [.str "a@x.com", recipientRecord (.str "b@x.com") (.str "B")])
        = .ok [emailOnly "a@x.com", recipientRecord (.str "b@x.com") (.str "B")]
    ∧ JsVal.str "" ∉ entriesOf (.arr [.str "a@x.com", recipientRecord (.str "b@x.com") (.str "B")])
    ∧ ∀ r ∈ [emailOnly "a@x.com", recipientRecord (.str "b@x.com") (.str "B")],
        (r.get "email").truthy = true :=
  ⟨rfl, by simp [entriesOf, recipientRecord],
    (normalizeRecipients_again
      (.arr [.str "a@x.com", recipientRecord (.str "b@x.com") (.str "B")])
      [emailOnly "a@x.com", recipientRecord (.str "b@x.com") (.str "B")] rfl
      (by simp [entriesOf, recipientRecord])).1⟩

/-- Counterexample to C26 as stated: `normalizeRecipients` succeeds on the
array holding the empty string, the recipient it returns carries an empty
email, and `normalizeRecipients` applied to that result throws. -/
theorem normalizeRecipients_empty_email_counterexample :
    normalizeRecipients (.arr [.str ""]) = .ok [emailOnly ""]
    ∧ ((emailOnly "").get "email") = .str ""
    ∧ ((emailOnly "").get "email").truthy = false
    ∧ normalizeRecipients (.arr [emailOnly ""])
        = .error (newError "Invalid recipient format supplied to mailer") :=
  ⟨rfl, rfl, rfl, rfl⟩

/-! ## Post counts: facts and claims -/

theorem countMatched_le (rt : JsRuntime) (id : JsVal) (name : String) :
    ∀ (blogs : List JsVal) (n : Nat), countMatched rt id name blogs = .ok n → n ≤ blogs.length
  | [], n, h => by
    simp only [countMatched] at h
    injection h with h
    omega
  | blog :: rest, n, h => by
    simp only [countMatched] at h
    cases hb : blogMatches rt id name blog with
    | error e => rw [hb] at h; cases h
    | ok hit =>
      rw [hb] at h
      cases hr : countMatched rt id name rest with
      | error e => rw [hr] at h; cases h
      | ok m =>
        rw [hr] at h
        have hm := countMatched_le rt id name rest m hr
        injection h with h
        rw [List.length_cons]
        cases hit
        · simp only [Bool.false_eq_true, if_false] at h
          omega
        · simp only [if_true] at h
          omega

theorem callToLowerCase_ok (rt : JsRuntime) {v : JsVal} (h : v.typeof = "string") :
    ∃ lowered, callToLowerCase rt v = .ok lowered := by
  obtain ⟨s, rfl⟩ := (typeof_string_iff v).1 h
  exact ⟨_, rfl⟩

theorem entryMatches_ok (rt : JsRuntime) (id : JsVal) (name : String) {c : JsVal}
    (h : nameIsText c) : ∃ hit, entryMatches rt id name c = .ok hit := by
  unfold entryMatches
  split
  · exact ⟨_, rfl⟩
  · split
    · rename_i hs
      split
      · obtain ⟨lowered, hl⟩ := callToLowerCase_ok rt hs
        rw [hl]
        exact ⟨_, rfl⟩
      · exact ⟨_, rfl⟩
    · split
      · split
        · exact ⟨_, rfl⟩
        · split
          · rename_i hn
            simp only [Bool.and_eq_true] at hn
            obtain ⟨lowered, hl⟩ := callToLowerCase_ok rt (h hn.1)
            rw [hl]
            exact ⟨_, rfl⟩
          · exact ⟨_, rfl⟩
      · exact ⟨_, rfl⟩

theorem anyEntryMatches_ok (rt : JsRuntime) (id : JsVal) (name : String) :
    ∀ entries : List JsVal, (∀ c ∈ entries, nameIsText c) →
      ∃ hit, anyEntryMatches rt id name entries = .ok hit
  | [], _ => ⟨_, rfl⟩
  | c :: rest, h => by
    obtain ⟨hit, hc⟩ := entryMatches_ok rt id name (h c (List.mem_cons_self _ _))
    obtain ⟨hits, hr⟩ := anyEntryMatches_ok rt id name rest
      (fun x hx => h x (List.mem_cons_of_mem _ hx))
    cases hit
    · exact ⟨hits, by simp only [anyEntryMatches, hc, hr]⟩
    · exact ⟨true, by simp only [anyEntryMatches, hc]⟩

theorem blogMatches_ok (rt : JsRuntime) (id : JsVal) (name : String) {blog : JsVal}
    (h : ∀ c ∈ entriesOfBlog blog, nameIsText c) :
    ∃ hit, blogMatches rt id name blog = .ok hit := by
  unfold blogMatches
  unfold entriesOfBlog at h
  split
  · rename_i c cs hcat
    rw [hcat] at h
    exact anyEntryMatches_ok rt id name _ h
  · rename_i hcat
    have h' : ∀ c ∈ (match blog.get "category" with
        | .arr entries => entries
        | single => [single]), nameIsText c := by
      intro c hc
      apply h c
      split
      · rename_i c' cs' hcat'
        exact absurd hcat' (hcat c' cs')
      · exact hc
    simp only []
    split
    · exact ⟨_, rfl⟩
    · split
      · rename_i entries hentries
        rw [hentries] at h'
        exact anyEntryMatches_ok rt id name _ h'
      · rename_i single hsingle
        apply entryMatches_ok
        apply h'
        split
        · rename_i entries hentries
          exact absurd hentries (hsingle entries)
        · exact List.mem_singleton.2 rfl

theorem countMatched_ok (rt : JsRuntime) (id : JsVal) (name : String) :
    ∀ blogs : List JsVal, (∀ b ∈ blogs, ∀ c ∈ entriesOfBlog b, nameIsText c) →
      ∃ n, countMatched rt id name blogs = .ok n
  | [], _ => ⟨_, rfl⟩
  | blog :: rest, h => by
    obtain ⟨hit, hb⟩ := blogMatches_ok rt id name (h blog (List.mem_cons_self _ _))
    obtain ⟨m, hr⟩ := countMatched_ok rt id name rest
      (fun b hb' => h b (List.mem_cons_of_mem _ hb'))
    exact ⟨if hit = true then m + 1 else m, by simp only [countMatched, hb, hr]⟩

/-- With no `blogs` array on the category and a non-empty list of blogs,
`getPostCount` returns what the loop counts. -/
theorem getPostCount_of_blogs (rt : JsRuntime) (category blog : JsVal) (rest : List JsVal)
    (h : (category.get "blogs").isArray = false) :
    getPostCount rt category (.arr (blog :: rest))
      = match countMatched rt (category.get "_id") (loweredName rt category) (blog :: rest) with
        | .error e => .error e
        | .ok matched => .ok (matched : Int) := by
  unfold getPostCount
  cases hb : category.get "blogs" <;> first | rfl | (rw [hb] at h; cases h)

/-- C27: `getPostCount` counts each blog at most once.  For a category whose
`blogs` is not an array and a non-empty list of blogs, every result it returns
is a natural number no greater than the number of blogs, however many entries
of one blog match; it does return a result when every `name` of a category
entry is a string (or missing).  When `category.blogs` is an array the result
is its length, whatever the second argument. -/
theorem getPostCount_counts_each_blog_once (rt : JsRuntime) (category blog blogs : JsVal)
    (rest items : List JsVal) :
    ((category.get "blogs").isArray = false →
      (∀ n : Int, getPostCount rt category (.arr (blog :: rest)) = .ok n →
        0 ≤ n ∧ n ≤ ((blog :: rest).length : Int))
      ∧ ((∀ b ∈ blog :: rest, ∀ c ∈ entriesOfBlog b, nameIsText c) →
        ∃ n : Nat, getPostCount rt category (.arr (blog :: rest)) = .ok (n : Int)
          ∧ n ≤ (blog :: rest).length))
    ∧ (category.get "blogs" = .arr items →
      getPostCount rt category blogs = .ok (items.length : Int)) := by
  constructor
  · intro h
    rw [getPostCount_of_blogs rt category blog rest h]
    constructor
    · intro n hn
      cases hc : countMatched rt (category.get "_id") (loweredName rt category) (blog :: rest) with
      | error e => rw [hc] at hn; cases hn
      | ok m =>
        rw [hc] at hn
        have hm := countMatched_le rt _ _ _ m hc
        injection hn with hn
        subst hn
        exact ⟨Int.ofNat_nonneg m, Int.ofNat_le.2 hm⟩
    · intro ht
      obtain ⟨m, hc⟩ := countMatched_ok rt (category.get "_id") (loweredName rt category)
        (blog :: rest) ht
      rw [hc]
      exact ⟨m, rfl, countMatched_le rt _ _ _ m hc⟩
  · intro h
    unfold getPostCount
    rw [h]

/-- Witness of C27: the first of two blogs names the category by name, by
name in capitals and by id, and is counted once. -/
theorem getPostCount_counts_each_blog_once_witness :
    (techCategory.get "blogs").isArray = false
    ∧ getPostCount exampleRuntime techCategory (.arr techBlogs) = .ok 1
    ∧ (0 : Int) ≤ 1 ∧ (1 : Int) ≤ (techBlogs.length : Int) :=
  ⟨rfl, rfl,
    ((getPostCount_counts_each_blog_once exampleRuntime techCategory
      (.obj [("categories", .arr [.str "tech", .str "TECH", .obj [("_id", .str "c1")]])])
      .undefined [.obj [("category", .obj [("_id", .str "c2"), ("name", .str "Life")])]] []).1
      rfl).1 1 rfl⟩

end ShabdSetu
